import Mathlib

/-!
# Pomadoro: paired pomodoro timers

A shallow embedding of the server routes (`backend/routes/auth.js`,
`backend/routes/timer.js`, `backend/routes/tasks.js`), of the realtime hub (`backend/websocket.js`) and of
the two client projections of the remaining time (`public/app.js`), followed by
theorems about them.

Modelling conventions.

* The SQLite tables are lists of rows in rowid (insertion) order.
* Identifiers are produced by `uuidv4()` in the source.  They are non-empty
  strings, hence truthy in every `x?.id || y` of the source; here they are
  natural numbers (their order standing for the order of the strings) and the
  identifier a handler draws is an argument of it.
* `Date.now()` is an argument (milliseconds, an integer) and `CURRENT_TIMESTAMP`
  is an argument (seconds).
* JavaScript numbers are integers here: the values involved are integers far
  below `2 ^ 53`, where the double arithmetic of the source is exact.
* A handler is a function from the store to the store it leaves behind paired
  with its answer (an error or a row); handlers run one after the other.
-/

namespace Pomadoro

/-! ## Data model (`backend/database.js`) -/

abbrev RoomId := Nat

abbrev UserId := Nat

abbrev TaskId := Nat

abbrev SessionId := Nat

/-- Row of table `rooms`. -/
structure Room where
  id : RoomId
  created_at : Nat
deriving DecidableEq, Repr

/-- Row of table `users`. -/
structure User where
  id : UserId
  name : String
  invite_code : String
  room_id : Option RoomId
  created_at : Nat
deriving DecidableEq, Repr

/-- Row of table `tasks`; `is_active` is the integer column (0 or 1). -/
structure Task where
  id : TaskId
  user_id : UserId
  title : String
  is_active : Nat
  created_at : Nat
deriving DecidableEq, Repr

/-- Values the code writes into column `status` of `timer_sessions`. -/
inductive Status where
  | stopped
  | running
  | paused
deriving DecidableEq, Repr

/-- Row of table `timer_sessions`; `start_time` is nullable, in milliseconds. -/
structure TimerSession where
  id : SessionId
  user_id : UserId
  task_id : Option TaskId
  status : Status
  phase : String
  start_time : Option Int
  duration_seconds : Int
  created_at : Nat
deriving DecidableEq, Repr

/-- The four tables of the database. -/
structure Db where
  rooms : List Room
  users : List User
  tasks : List Task
  timer_sessions : List TimerSession
deriving DecidableEq, Repr

/-- The database right after `createTables`. -/
def Db.empty : Db := { rooms := [], users := [], tasks := [], timer_sessions := [] }

/-- Error answers of the handlers, one per `res.status(..).json({ error })`. -/
inductive ApiError where
  /-- Status 400, "Требуется invite-код и имя" -/
  | credentialsRequired
  /-- Status 400, "Название задачи обязательно" -/
  | titleRequired
  /-- Status 404, "Задача не найдена" -/
  | taskNotFound
  /-- Status 400, "Таймер не запущен" -/
  | timerNotRunning
  /-- Status 400, "Таймер не на паузе" -/
  | timerNotPaused
  /-- Status 400, "Таймер не найден" -/
  | timerNotFound
  /-- Status 500, "Ошибка сервера": a rejected statement caught by the handler -/
  | serverError
deriving DecidableEq, Repr

/-- HTTP status of an error answer. -/
def ApiError.httpStatus : ApiError → Nat
  | .credentialsRequired => 400
  | .titleRequired => 400
  | .taskNotFound => 404
  | .timerNotRunning => 400
  | .timerNotPaused => 400
  | .timerNotFound => 400
  | .serverError => 500

/-! ## JavaScript coercions used by the timer code -/

/-- Truthiness of a nullable number: `null` and `0` are falsy. -/
def jsTruthy : Option Int → Bool
  | none => false
  | some v => v != 0

/-- Numeric value of a nullable number in arithmetic: `null` counts as `0`. -/
def jsNum : Option Int → Int
  | none => 0
  | some v => v

/-- The code points `String.prototype.trim` strips: the white space and line
terminators of ECMAScript. -/
def jsIsWhiteSpace (c : Char) : Bool :=
  c.toNat = 0x09 || c.toNat = 0x0A || c.toNat = 0x0B || c.toNat = 0x0C || c.toNat = 0x0D ||
  c.toNat = 0x20 || c.toNat = 0xA0 || c.toNat = 0x1680 ||
  (0x2000 ≤ c.toNat && c.toNat ≤ 0x200A) ||
  c.toNat = 0x2028 || c.toNat = 0x2029 || c.toNat = 0x202F || c.toNat = 0x205F ||
  c.toNat = 0x3000 || c.toNat = 0xFEFF

/-- `String.prototype.trim`. -/
def jsTrim (s : String) : String :=
  String.mk (((s.data.dropWhile jsIsWhiteSpace).reverse.dropWhile jsIsWhiteSpace).reverse)

/-- `Math.floor(ms / 1000)`; `/` on `Int` rounds down for a positive divisor. -/
def floorSeconds (ms : Int) : Int := ms / 1000

/-! ## Queries -/

/-- `SELECT * FROM users WHERE id = ?`. -/
def getUser (db : Db) (uid : UserId) : Option User :=
  db.users.find? (fun u => u.id = uid)

/-- `SELECT * FROM tasks WHERE user_id = ? AND is_active = 1` through `dbGet`:
the first matching row. -/
def getActiveTask (db : Db) (uid : UserId) : Option Task :=
  db.tasks.find? (fun t => t.user_id = uid ∧ t.is_active = 1)

/-- `SELECT * FROM tasks WHERE id = ? AND user_id = ?`. -/
def getOwnedTask (db : Db) (taskId : TaskId) (uid : UserId) : Option Task :=
  db.tasks.find? (fun t => t.id = taskId ∧ t.user_id = uid)

/-- `SELECT * FROM tasks WHERE id = ?`. -/
def getTask (db : Db) (taskId : TaskId) : Option Task :=
  db.tasks.find? (fun t => t.id = taskId)

/-- One step of the scan for the most recently created row; of two rows with
the same `created_at` the earlier one in rowid order is kept. -/
def pickLatest (best : Option TimerSession) (r : TimerSession) : Option TimerSession :=
  match best with
  | none => some r
  | some b => if b.created_at < r.created_at then some r else some b

/-- The most recently created row of a list of rows. -/
def latest (rows : List TimerSession) : Option TimerSession :=
  rows.foldl pickLatest none

/-- `SELECT * FROM timer_sessions WHERE user_id = ? ORDER BY created_at DESC LIMIT 1`:
the current session of a user. -/
def currentSession (db : Db) (uid : UserId) : Option TimerSession :=
  latest (db.timer_sessions.filter (fun r => r.user_id = uid))

/-- `SELECT * FROM timer_sessions WHERE id = ?`. -/
def getSession (db : Db) (sid : SessionId) : Option TimerSession :=
  db.timer_sessions.find? (fun r => r.id = sid)

/-! ## Statements -/

/-- `INSERT INTO timer_sessions`: rejected when the primary key is taken. -/
def insertSession (db : Db) (r : TimerSession) : Except ApiError Db :=
  if db.timer_sessions.any (fun x => x.id = r.id) then .error .serverError
  else .ok { db with timer_sessions := db.timer_sessions ++ [r] }

/-- `UPDATE timer_sessions SET ... WHERE id = ?` with the assignment `f`. -/
def updateSession (db : Db) (sid : SessionId) (f : TimerSession → TimerSession) : Db :=
  { db with timer_sessions := db.timer_sessions.map (fun r => if r.id = sid then f r else r) }

/-- `INSERT INTO tasks`: rejected when the primary key is taken. -/
def insertTask (db : Db) (t : Task) : Except ApiError Db :=
  if db.tasks.any (fun x => x.id = t.id) then .error .serverError
  else .ok { db with tasks := db.tasks ++ [t] }

/-! ## Timer routes (`backend/routes/timer.js`) -/

/-- A field of a JSON request body: absent, `null`, or a value. -/
inductive BodyField (α : Type) where
  | absent
  | null
  | value (v : α)
deriving DecidableEq, Repr

/-- What a destructuring default `{ field = d } = req.body` binds: `d` for an
absent field and the field otherwise.  The default replaces `undefined` only,
so a `null` stays `null`, which is `none` here. -/
def BodyField.withDefault {α : Type} (f : BodyField α) (d : α) : Option α :=
  match f with
  | .absent => some d
  | .null => none
  | .value v => some v

/-- Body of `POST /api/timer/start`: `phase` a string and `durationSeconds` an
integer, each of which may be absent or `null`. -/
structure StartBody where
  phase : BodyField String
  durationSeconds : BodyField Int
deriving DecidableEq, Repr

/-- What a handler leaves behind: the store, and its answer. -/
abbrev Outcome (α : Type) := Db × Except ApiError α

/-- `GET /api/timer`: the current session, created as stopped/work/1500 when
the user has none. -/
def timerGet (db : Db) (uid : UserId) (newId : SessionId) (ts : Nat) :
    Outcome (Option TimerSession) :=
  match currentSession db uid with
  | some session => (db, .ok (some session))
  | none =>
    match insertSession db
        { id := newId, user_id := uid, task_id := none, status := .stopped,
          phase := "work", start_time := none, duration_seconds := 1500,
          created_at := ts } with
    | .error e => (db, .error e)
    | .ok db' => (db', .ok (getSession db' newId))

/-- `POST /api/timer/start`.  Columns `phase` and `duration_seconds` are
`NOT NULL`: with a `null` for either the `UPDATE` or `INSERT` is rejected,
nothing is written and the handler answers 500. -/
def timerStart (db : Db) (uid : UserId) (body : StartBody) (now : Int)
    (newId : SessionId) (ts : Nat) : Outcome (Option TimerSession) :=
  let phase := body.phase.withDefault "work"
  let durationSeconds := body.durationSeconds.withDefault 1500
  let activeTask := getActiveTask db uid
  match currentSession db uid with
  | some session =>
    match phase, durationSeconds with
    | some phase, some durationSeconds =>
      let db' := updateSession db session.id (fun r =>
        { r with status := .running, phase := phase, start_time := some now,
                 duration_seconds := durationSeconds,
                 task_id := activeTask.map (fun t => t.id) })
      (db', .ok (getSession db' session.id))
    | _, _ => (db, .error .serverError)
  | none =>
    match phase, durationSeconds with
    | some phase, some durationSeconds =>
      match insertSession db
          { id := newId, user_id := uid, task_id := activeTask.map (fun t => t.id),
            status := .running, phase := phase, start_time := some now,
            duration_seconds := durationSeconds, created_at := ts } with
      | .error e => (db, .error e)
      | .ok db' => (db', .ok (getSession db' newId))
    | _, _ => (db, .error .serverError)

/-- `POST /api/timer/pause`. -/
def timerPause (db : Db) (uid : UserId) : Outcome (Option TimerSession) :=
  match currentSession db uid with
  | none => (db, .error .timerNotRunning)
  | some session =>
    if session.status ≠ .running then (db, .error .timerNotRunning)
    else
      let db' := updateSession db session.id (fun r => { r with status := .paused })
      (db', .ok (getSession db' session.id))

/-- `POST /api/timer/resume`; `t1` is the clock reading used for `elapsed`,
`t2` the later reading called `now` in the source. -/
def timerResume (db : Db) (uid : UserId) (t1 t2 : Int) : Outcome (Option TimerSession) :=
  match currentSession db uid with
  | none => (db, .error .timerNotPaused)
  | some session =>
    if session.status ≠ .paused then (db, .error .timerNotPaused)
    else
      let elapsed := floorSeconds (t1 - jsNum session.start_time)
      let remaining := max 0 (session.duration_seconds - elapsed)
      let now := t2
      let db' := updateSession db session.id (fun r =>
        { r with status := .running,
                 start_time := some (now - (session.duration_seconds - remaining) * 1000),
                 duration_seconds := remaining })
      (db', .ok (getSession db' session.id))

/-- `POST /api/timer/stop`. -/
def timerStop (db : Db) (uid : UserId) : Outcome (Option TimerSession) :=
  match currentSession db uid with
  | none => (db, .error .timerNotFound)
  | some session =>
    let db' := updateSession db session.id (fun r => { r with status := .stopped })
    (db', .ok (getSession db' session.id))

/-- The handler answered without an error. -/
def succeeded {α : Type} (out : Outcome α) : Prop :=
  ∃ a, out.2 = .ok a

/-! ## Task routes (`backend/routes/tasks.js`) -/

/-- `POST /api/tasks`; `title` is `none` when the body has no title. -/
def taskCreate (db : Db) (uid : UserId) (title : Option String) (newId : TaskId)
    (ts : Nat) : Outcome (Option Task) :=
  match title with
  | none => (db, .error .titleRequired)
  | some title =>
    if jsTrim title = "" then (db, .error .titleRequired)
    else
      match insertTask db
          { id := newId, user_id := uid, title := jsTrim title, is_active := 0,
            created_at := ts } with
      | .error e => (db, .error e)
      | .ok db' => (db', .ok (getTask db' newId))

/-- `UPDATE tasks SET is_active = 0 WHERE user_id = ?`. -/
def deactivateAll (db : Db) (uid : UserId) : Db :=
  { db with tasks := db.tasks.map (fun t => if t.user_id = uid then { t with is_active := 0 } else t) }

/-- `UPDATE tasks SET is_active = 1 WHERE id = ?`. -/
def activateById (db : Db) (taskId : TaskId) : Db :=
  { db with tasks := db.tasks.map (fun t => if t.id = taskId then { t with is_active := 1 } else t) }

/-- `DELETE FROM tasks WHERE id = ?`. -/
def deleteById (db : Db) (taskId : TaskId) : Db :=
  { db with tasks := db.tasks.filter (fun t => t.id ≠ taskId) }

/-- `POST /api/tasks/:taskId/activate`. -/
def taskActivate (db : Db) (uid : UserId) (taskId : TaskId) : Outcome (Option Task) :=
  match getOwnedTask db taskId uid with
  | none => (db, .error .taskNotFound)
  | some _ =>
    let db1 := deactivateAll db uid
    let db2 := activateById db1 taskId
    (db2, .ok (getTask db2 taskId))

/-- `DELETE /api/tasks/:taskId`. -/
def taskDelete (db : Db) (uid : UserId) (taskId : TaskId) : Outcome Unit :=
  match getOwnedTask db taskId uid with
  | none => (db, .error .taskNotFound)
  | some _ => (deleteById db taskId, .ok ())

/-- A request to one of the three mutating task routes, with what the handler
draws from its environment. -/
inductive TaskOp where
  | create (uid : UserId) (title : Option String) (newId : TaskId) (ts : Nat)
  | activate (uid : UserId) (taskId : TaskId)
  | delete (uid : UserId) (taskId : TaskId)
deriving DecidableEq, Repr

/-- The store after one task request. -/
def applyTaskOp (db : Db) : TaskOp → Db
  | .create uid title newId ts => (taskCreate db uid title newId ts).1
  | .activate uid taskId => (taskActivate db uid taskId).1
  | .delete uid taskId => (taskDelete db uid taskId).1

/-- The store after a sequence of task requests handled one after the other. -/
def runTaskOps (db : Db) (ops : List TaskOp) : Db :=
  ops.foldl applyTaskOp db

/-- The rows of `tasks` of one user. -/
def tasksOf (db : Db) (uid : UserId) : List Task :=
  db.tasks.filter (fun t => t.user_id = uid)

/-- The rows of `tasks` of one user with `is_active = 1`. -/
def activeTasksOf (db : Db) (uid : UserId) : List Task :=
  db.tasks.filter (fun t => t.user_id = uid ∧ t.is_active = 1)

/-- Activation requests `(user, task id)` handled one after the other: the
final store and whether every request was answered without an error. -/
def activateSeq (db : Db) : List (UserId × TaskId) → Db × Bool
  | [] => (db, true)
  | c :: cs =>
    let out := taskActivate db c.1 c.2
    let rest := activateSeq out.1 cs
    (rest.1, out.2.isOk && rest.2)

/-- The primary key of `tasks`: no two rows share an id. -/
def taskKeysUnique (db : Db) : Prop :=
  (db.tasks.map (fun t => t.id)).Nodup

/-- The primary key of `timer_sessions`: no two rows share an id. -/
def sessionKeysUnique (db : Db) : Prop :=
  (db.timer_sessions.map (fun r => r.id)).Nodup

instance (db : Db) : Decidable (taskKeysUnique db) := by
  unfold taskKeysUnique; infer_instance

instance (db : Db) : Decidable (sessionKeysUnique db) := by
  unfold sessionKeysUnique; infer_instance

/-! ## Realtime hub (`backend/websocket.js`) -/

abbrev WsId := Nat

/-- The two module-level maps: `connections` (user id to socket) and `rooms`
(room id to the set of user ids), both in insertion order.  A key is looked up
from the front, so each key counts once. -/
structure Hub where
  connections : List (UserId × WsId)
  rooms : List (Option RoomId × List UserId)
deriving DecidableEq, Repr

/-- Messages the server sends. -/
inductive Message where
  /-- `{ type: "pong" }` -/
  | pong
  /-- `{ type: "user:state", userId, data: { user: { id, name }, activeTask, timerSession } }` -/
  | userState (userId : UserId) (id : UserId) (name : String)
      (activeTask : Option Task) (timerSession : Option TimerSession)
deriving DecidableEq, Repr

/-- One call of `ws.send`: the user id it was looked up under, the socket, and
the message. -/
structure Delivery where
  target : UserId
  ws : WsId
  message : Message
deriving DecidableEq, Repr

/-- `sendToUser`; `readyState` gives the current state of every socket. -/
def sendToUser (hub : Hub) (readyState : WsId → Nat) (userId : UserId)
    (message : Message) : List Delivery :=
  match hub.connections.lookup userId with
  | some ws =>
    if readyState ws = 1 then [{ target := userId, ws := ws, message := message }] else []
  | none => []

/-- `broadcastToRoom`. -/
def broadcastToRoom (hub : Hub) (readyState : WsId → Nat) (roomId : Option RoomId)
    (message : Message) : List Delivery :=
  match hub.rooms.lookup roomId with
  | none => []
  | some userIds => userIds.flatMap (fun userId => sendToUser hub readyState userId message)

/-- The `state` object assembled by `sendUserState`. -/
def userStateMessage (db : Db) (user : User) (userId : UserId) : Message :=
  .userState userId user.id user.name (getActiveTask db userId) (currentSession db userId)

/-- `sendUserState`. -/
def sendUserState (db : Db) (hub : Hub) (readyState : WsId → Nat) (userId : UserId)
    (roomId : Option RoomId) : List Delivery :=
  match getUser db userId with
  | none => []
  | some user => broadcastToRoom hub readyState roomId (userStateMessage db user userId)

/-- `notifyTimerUpdate`. -/
def notifyTimerUpdate (db : Db) (hub : Hub) (readyState : WsId → Nat) (userId : UserId) :
    List Delivery :=
  match getUser db userId with
  | some user => sendUserState db hub readyState userId user.room_id
  | none => []

/-- `notifyTaskUpdate`. -/
def notifyTaskUpdate (db : Db) (hub : Hub) (readyState : WsId → Nat) (userId : UserId) :
    List Delivery :=
  match getUser db userId with
  | some user => sendUserState db hub readyState userId user.room_id
  | none => []

/-- The room set a broadcast for room `roomId` iterates over (empty when the
room has no entry in `rooms`). -/
def roomSet (hub : Hub) (roomId : Option RoomId) : List UserId :=
  (hub.rooms.lookup roomId).getD []

/-! ## Client projections of the remaining time (`public/app.js`) -/

/-- The value of `state.myTimer.remaining` after `updateMyTimerDisplay`, from
its value `prev` before the call. -/
def updateMyTimerDisplay (prev : Int) (session : TimerSession) (now : Int) : Int :=
  if session.status = .running ∧ jsTruthy session.start_time = true then
    let elapsed := floorSeconds (now - jsNum session.start_time)
    max 0 (session.duration_seconds - elapsed)
  else if session.status = .paused then
    prev
  else
    session.duration_seconds

/-- The local `remaining` computed by `updatePartnerDisplay` for a timer. -/
def updatePartnerDisplay (timer : TimerSession) (now : Int) : Int :=
  if timer.status = .running ∧ jsTruthy timer.start_time = true then
    let elapsed := floorSeconds (now - jsNum timer.start_time)
    max 0 (timer.duration_seconds - elapsed)
  else if timer.status = .paused then
    if jsTruthy timer.start_time = true then
      let elapsed := floorSeconds (now - jsNum timer.start_time)
      max 0 (timer.duration_seconds - elapsed)
    else
      timer.duration_seconds
  else
    timer.duration_seconds


/-! ## Sample data for the concrete checks -/

/-- A session of user 1 started at 1 700 000 000 000 ms with 1500 s to run. -/
def sampleSession (status : Status) : TimerSession :=
  { id := 7, user_id := 1, task_id := none, status := status, phase := "work",
    start_time := some 1700000000000, duration_seconds := 1500, created_at := 0 }

/-- A store with two paired users, three tasks (task 11 of user 1 active) and
the sample session of user 1. -/
def sampleDb (status : Status) : Db :=
  { rooms := [{ id := 1, created_at := 0 }],
    users := [{ id := 1, name := "Ann", invite_code := "a", room_id := some 1, created_at := 0 },
              { id := 2, name := "Bob", invite_code := "b", room_id := some 1, created_at := 0 }],
    tasks := [{ id := 10, user_id := 1, title := "read", is_active := 0, created_at := 0 },
              { id := 11, user_id := 1, title := "write", is_active := 1, created_at := 0 },
              { id := 20, user_id := 2, title := "draw", is_active := 1, created_at := 0 }],
    timer_sessions := [sampleSession status] }

/-- A hub where users 1, 2 and 4 are in the set of room 1 and user 3 in the set
of room 2, each with a registered socket. -/
def sampleHub : Hub :=
  { connections := [(1, 100), (2, 200), (3, 300), (4, 400)],
    rooms := [(some 1, [1, 2, 4]), (some 2, [3])] }

/-- Socket 400 is closed (`readyState = 3`), every other socket is open. -/
def sampleReadyState : WsId → Nat :=
  fun ws => if ws = 400 then 3 else 1

/-- The store after user 1 starts a work session of `d` seconds at time `s` in
the empty store, pauses it, and resumes it at time `T` (one clock reading). -/
def startPauseResume (s d T : Int) : Db :=
  let db1 := (timerStart Db.empty 1 { phase := .value "work", durationSeconds := .value d } s 7 0).1
  let db2 := (timerPause db1 1).1
  (timerResume db2 1 T T).1

/-- What the own-timer display shows at time `t` for the current session of
user 1 (0 when there is none). -/
def shownRemaining (db : Db) (t : Int) : Int :=
  match currentSession db 1 with
  | some session => updateMyTimerDisplay 0 session t
  | none => 0

/-- The projection an uninterrupted run started at `s` with `d` seconds gives
at time `t`. -/
def uninterruptedRemaining (s d t : Int) : Int :=
  max 0 (d - floorSeconds (t - s))

/-! ## Sequences of timer requests -/

/-- A request to one of the five timer routes, with what the handler draws
from its environment. -/
inductive TimerOp where
  | get (uid : UserId) (newId : SessionId) (ts : Nat)
  | start (uid : UserId) (body : StartBody) (now : Int) (newId : SessionId) (ts : Nat)
  | pause (uid : UserId)
  | resume (uid : UserId) (t1 t2 : Int)
  | stop (uid : UserId)
deriving DecidableEq, Repr

/-- The caller of a timer request. -/
def TimerOp.caller : TimerOp → UserId
  | .get uid _ _ => uid
  | .start uid _ _ _ _ => uid
  | .pause uid => uid
  | .resume uid _ _ => uid
  | .stop uid => uid

/-- The store after one timer request. -/
def applyTimerOp (db : Db) : TimerOp → Db
  | .get uid newId ts => (timerGet db uid newId ts).1
  | .start uid body now newId ts => (timerStart db uid body now newId ts).1
  | .pause uid => (timerPause db uid).1
  | .resume uid t1 t2 => (timerResume db uid t1 t2).1
  | .stop uid => (timerStop db uid).1

/-- The store after a sequence of timer requests handled one after the other. -/
def runTimerOps (db : Db) (ops : List TimerOp) : Db :=
  ops.foldl applyTimerOp db

/-- The rows of `timer_sessions` of one user. -/
def sessionsOf (db : Db) (uid : UserId) : List TimerSession :=
  db.timer_sessions.filter (fun r => r.user_id = uid)

/-- The duration a request writes is not negative: for `start`, the
`durationSeconds` of the body (1500 when absent, and nothing is written when
it is `null`); other requests carry none. -/
def TimerOp.durationNonneg : TimerOp → Bool
  | .start _ body _ _ _ =>
    match body.durationSeconds.withDefault 1500 with
    | some d => decide (0 ≤ d)
    | none => true
  | _ => true

/-- The value of `state.myTimer.remaining` (initially 0) after
`updateMyTimerDisplay` has run on each observation `(session, now)` in turn. -/
def displayAfter (observations : List (TimerSession × Int)) : Int :=
  observations.foldl (fun prev o => updateMyTimerDisplay prev o.1 o.2) 0

/-! ## Login (`backend/routes/auth.js`) -/

/-- `SELECT * FROM users WHERE invite_code = ?`. -/
def getUserByInviteCode (db : Db) (inviteCode : String) : Option User :=
  db.users.find? (fun u => u.invite_code = inviteCode)

/-- The rows of `users` that reference a room. -/
def membersOf (db : Db) (roomId : RoomId) : List User :=
  db.users.filter (fun u => u.room_id = some roomId)

/-- The ids returned by `SELECT r.id, COUNT(u.id) AS user_count FROM rooms r
LEFT JOIN users u ON u.room_id = r.id GROUP BY r.id HAVING user_count = 1`.
SQLite yields the groups in the order of the grouping key `r.id`, so the ids
come in ascending order and the handler, taking the first, takes the smallest. -/
def roomsWithOneUser (db : Db) : List RoomId :=
  ((db.rooms.filter (fun r => (membersOf db r.id).length = 1)).map
    (fun r => r.id)).insertionSort (fun a b => a ≤ b)

/-- `INSERT INTO rooms`: rejected when the primary key is taken. -/
def insertRoom (db : Db) (r : Room) : Except ApiError Db :=
  if db.rooms.any (fun x => x.id = r.id) then .error .serverError
  else .ok { db with rooms := db.rooms ++ [r] }

/-- `INSERT INTO users`: rejected when the primary key or the unique
`invite_code` is taken. -/
def insertUser (db : Db) (u : User) : Except ApiError Db :=
  if db.users.any (fun x => x.id = u.id ∨ x.invite_code = u.invite_code) then
    .error .serverError
  else .ok { db with users := db.users ++ [u] }

/-- The answer of the login route after its `INSERT INTO users`: the row read
back by id. -/
def readBack (db : Db) (userId : UserId) : Except ApiError User :=
  match getUser db userId with
  | some user => .ok user
  | none => .error .serverError

/-- `POST /api/auth/login`; a field is `none` when the body lacks it.
`newUserId` and `newRoomId` are the ids `uuidv4()` yields when called. -/
def login (db : Db) (inviteCode name : Option String) (newUserId : UserId)
    (newRoomId : RoomId) (ts : Nat) : Outcome User :=
  match inviteCode, name with
  | some inviteCode, some name =>
    if inviteCode = "" ∨ name = "" then (db, .error .credentialsRequired)
    else
      match getUserByInviteCode db inviteCode with
      | some user => (db, .ok user)
      | none =>
        match roomsWithOneUser db with
        | roomId :: _ =>
          match insertUser db
              { id := newUserId, name := name, invite_code := inviteCode,
                room_id := some roomId, created_at := ts } with
          | .error e => (db, .error e)
          | .ok db' => (db', readBack db' newUserId)
        | [] =>
          match insertRoom db { id := newRoomId, created_at := ts } with
          | .error e => (db, .error e)
          | .ok db1 =>
            match insertUser db1
                { id := newUserId, name := name, invite_code := inviteCode,
                  room_id := some newRoomId, created_at := ts } with
            | .error e => (db1, .error e)
            | .ok db2 => (db2, readBack db2 newUserId)
  | _, _ => (db, .error .credentialsRequired)

/-- A login request with what the handler draws from its environment. -/
structure LoginReq where
  inviteCode : Option String
  name : Option String
  newUserId : UserId
  newRoomId : RoomId
  ts : Nat
deriving DecidableEq, Repr

/-- The store after one login request. -/
def applyLogin (db : Db) (q : LoginReq) : Db :=
  (login db q.inviteCode q.name q.newUserId q.newRoomId q.ts).1

/-- The store after a sequence of login requests handled one after the other. -/
def runLogins (db : Db) (qs : List LoginReq) : Db :=
  qs.foldl applyLogin db

/-- Every user id drawn along the sequence is new at the time it is drawn, as
ids from `uuidv4()` are. -/
def freshUserIds : Db → List LoginReq → Bool
  | _, [] => true
  | db, q :: qs =>
    db.users.all (fun u => decide (u.id ≠ q.newUserId)) && freshUserIds (applyLogin db q) qs

/-- The rows `SELECT * FROM users WHERE room_id = ? AND id != ?` ranges over
for a user (`backend/routes/partner.js`): the partners of the user. -/
def partnersOf (db : Db) (user : User) : List User :=
  db.users.filter (fun p => p.room_id = user.room_id ∧ p.id ≠ user.id)

/-! ## Connection events of the hub (`backend/websocket.js`) -/

/-- `Map.prototype.set`: replaces the value of a key in place, or adds the key
at the end. -/
def mapSet (m : List (UserId × WsId)) (k : UserId) (v : WsId) : List (UserId × WsId) :=
  if m.any (fun e => e.1 = k) then m.map (fun e => if e.1 = k then (k, v) else e)
  else m ++ [(k, v)]

/-- `Map.prototype.delete`. -/
def mapDelete (m : List (UserId × WsId)) (k : UserId) : List (UserId × WsId) :=
  m.filter (fun e => e.1 ≠ k)

/-- `Set.prototype.add`. -/
def setAdd (s : List UserId) (x : UserId) : List UserId :=
  if x ∈ s then s else s ++ [x]

/-- `Set.prototype.delete`. -/
def setDelete (s : List UserId) (x : UserId) : List UserId :=
  s.filter (fun y => y ≠ x)

/-- `if (!rooms.has(roomId)) rooms.set(roomId, new Set()); rooms.get(roomId).add(userId)`. -/
def roomsJoin (rooms : List (Option RoomId × List UserId)) (roomId : Option RoomId)
    (userId : UserId) : List (Option RoomId × List UserId) :=
  let rooms1 := if rooms.any (fun e => e.1 = roomId) then rooms else rooms ++ [(roomId, [])]
  rooms1.map (fun e => if e.1 = roomId then (e.1, setAdd e.2 userId) else e)

/-- `if (rooms.has(roomId)) rooms.get(roomId).delete(userId)`. -/
def roomsLeave (rooms : List (Option RoomId × List UserId)) (roomId : Option RoomId)
    (userId : UserId) : List (Option RoomId × List UserId) :=
  rooms.map (fun e => if e.1 = roomId then (e.1, setDelete e.2 userId) else e)

/-- What the `connection` handler leaves behind: the hub, the messages sent,
and whether it closed the socket (code 1008). -/
structure ConnectionResult where
  hub : Hub
  sent : List Delivery
  closed : Bool
deriving DecidableEq, Repr

/-- The `connection` handler of `setupWebSocket` for socket `ws`;
`cookieUserId` is the `userId` cookie, `none` when it is missing. -/
def onConnection (db : Db) (hub : Hub) (readyState : WsId → Nat)
    (cookieUserId : Option UserId) (ws : WsId) : ConnectionResult :=
  match cookieUserId with
  | none => { hub := hub, sent := [], closed := true }
  | some userId =>
    match getUser db userId with
    | none => { hub := hub, sent := [], closed := true }
    | some user =>
      let hub' : Hub :=
        { connections := mapSet hub.connections userId ws,
          rooms := roomsJoin hub.rooms user.room_id userId }
      { hub := hub', sent := sendUserState db hub' readyState userId user.room_id,
        closed := false }

/-- The `close` handler a connection of `userId` registered; `roomId` is the
`room_id` the user had when the connection was made. -/
def onClose (hub : Hub) (userId : UserId) (roomId : Option RoomId) : Hub :=
  { connections := mapDelete hub.connections userId,
    rooms := roomsLeave hub.rooms roomId userId }

/-- The hub after a user connects with socket `ws1`, connects again with
socket `ws2`, and the `close` event of `ws1` is handled last. -/
def reconnectThenClose (db : Db) (hub : Hub) (readyState : WsId → Nat) (user : User)
    (ws1 ws2 : WsId) : Hub :=
  let hub1 := (onConnection db hub readyState (some user.id) ws1).hub
  let hub2 := (onConnection db hub1 readyState (some user.id) ws2).hub
  onClose hub2 user.id user.room_id

/-! ## Further sample data -/

/-- User 1 starts a 1500 s work session, then pauses it. -/
def startThenPause : List TimerOp :=
  [.start 1 { phase := .value "work", durationSeconds := .value 1500 } 1700000000000 7 0,
   .pause 1]

/-- User 1 starts a session with `durationSeconds = -5`, then stops it. -/
def negativeStartThenStop : List TimerOp :=
  [.start 1 { phase := .value "work", durationSeconds := .value (-5) } 1700000000000 7 0,
   .stop 1]

/-- Three logins with three new invite codes. -/
def threeLogins : List LoginReq :=
  [{ inviteCode := some "a", name := some "Ann", newUserId := 1, newRoomId := 1, ts := 0 },
   { inviteCode := some "b", name := some "Bob", newUserId := 2, newRoomId := 2, ts := 1 },
   { inviteCode := some "c", name := some "Cyd", newUserId := 3, newRoomId := 3, ts := 2 }]

/-- What the login route maintains: the primary keys of `rooms` and `users`,
every user in an existing room, and one or two users in every room. -/
def pairingInvariant (db : Db) : Prop :=
  (db.rooms.map (fun r => r.id)).Nodup ∧ (db.users.map (fun u => u.id)).Nodup ∧
  (∀ u ∈ db.users, ∃ r ∈ db.rooms, u.room_id = some r.id) ∧
  (∀ r ∈ db.rooms, 1 ≤ (membersOf db r.id).length ∧ (membersOf db r.id).length ≤ 2)

/-! ## Sequences of connection events -/

/-- The hub when the server starts: both maps empty. -/
def Hub.empty : Hub := { connections := [], rooms := [] }

/-- A `connection` event (the `userId` cookie and the new socket), or the
`close` event of a socket of a user. -/
inductive HubEvent where
  | connect (cookieUserId : Option UserId) (ws : WsId)
  | close (userId : UserId)
deriving DecidableEq, Repr

/-- The hub after one event.  The `close` handler exists only for a connection
that was accepted, and it uses the `room_id` read when the connection was made;
the `users` table being fixed, that is the user's `room_id`. -/
def applyHubEvent (db : Db) (readyState : WsId → Nat) (hub : Hub) : HubEvent → Hub
  | .connect cookieUserId ws => (onConnection db hub readyState cookieUserId ws).hub
  | .close userId =>
    match getUser db userId with
    | some user => onClose hub userId user.room_id
    | none => hub

/-- The hub after a sequence of events, from the empty hub. -/
def runHubEvents (db : Db) (readyState : WsId → Nat) (events : List HubEvent) : Hub :=
  events.foldl (applyHubEvent db readyState) Hub.empty

/-! ## The current session of a user -/

/-- The integer division of the model is the floor of the exact quotient, as
`Math.floor(ms / 1000)` is. -/
theorem floorSeconds_eq_floor (ms : Int) : floorSeconds ms = ⌊(ms : ℚ) / 1000⌋ := by
  unfold floorSeconds
  have h := Rat.floor_intCast_div_natCast ms 1000
  simpa using h.symm

theorem foldl_pickLatest_some (rows : List TimerSession) :
    ∀ b, ∃ r, rows.foldl pickLatest (some b) = some r := by
  induction rows with
  | nil => intro b; exact ⟨b, rfl⟩
  | cons a l ih =>
    intro b
    simp only [List.foldl_cons, pickLatest]
    split
    · exact ih a
    · exact ih b

theorem latest_eq_none_iff (rows : List TimerSession) : latest rows = none ↔ rows = [] := by
  cases rows with
  | nil => simp [latest]
  | cons a l =>
    obtain ⟨r, hr⟩ := foldl_pickLatest_some l a
    simp [latest, pickLatest, hr]

theorem foldl_pickLatest_mem (rows : List TimerSession) :
    ∀ best r, rows.foldl pickLatest best = some r → best = some r ∨ r ∈ rows := by
  induction rows with
  | nil => intro best r h; exact Or.inl h
  | cons a l ih =>
    intro best r h
    rw [List.foldl_cons] at h
    rcases ih _ _ h with h1 | h1
    · cases best with
      | none =>
        simp only [pickLatest, Option.some.injEq] at h1
        exact Or.inr (by simp [h1])
      | some b =>
        simp only [pickLatest] at h1
        split at h1
        · simp only [Option.some.injEq] at h1
          exact Or.inr (by simp [h1])
        · exact Or.inl h1
    · exact Or.inr (List.mem_cons_of_mem _ h1)

theorem latest_mem {rows : List TimerSession} {r : TimerSession} (h : latest rows = some r) :
    r ∈ rows := by
  rcases foldl_pickLatest_mem rows none r h with h1 | h1
  · cases h1
  · exact h1

theorem foldl_pickLatest_map (g : TimerSession → TimerSession)
    (hg : ∀ r, (g r).created_at = r.created_at) (rows : List TimerSession) :
    ∀ best, (rows.map g).foldl pickLatest (best.map g) = (rows.foldl pickLatest best).map g := by
  induction rows with
  | nil => intro best; rfl
  | cons a l ih =>
    intro best
    simp only [List.map_cons, List.foldl_cons]
    have h : pickLatest (best.map g) (g a) = (pickLatest best a).map g := by
      cases best with
      | none => rfl
      | some b =>
        simp only [pickLatest, Option.map_some', hg]
        split <;> rfl
    rw [h]
    exact ih _

theorem latest_map (g : TimerSession → TimerSession)
    (hg : ∀ r, (g r).created_at = r.created_at) (rows : List TimerSession) :
    latest (rows.map g) = (latest rows).map g :=
  foldl_pickLatest_map g hg rows none

theorem currentSession_mem {db : Db} {uid : UserId} {s : TimerSession}
    (h : currentSession db uid = some s) : s ∈ db.timer_sessions ∧ s.user_id = uid := by
  have := latest_mem h
  simpa using this

theorem currentSession_eq_none_iff (db : Db) (uid : UserId) :
    currentSession db uid = none ↔ ∀ r ∈ db.timer_sessions, r.user_id ≠ uid := by
  unfold currentSession
  rw [latest_eq_none_iff]
  simp [List.filter_eq_nil_iff]

/-- An `UPDATE ... WHERE id = ?` that assigns neither `user_id` nor `created_at`
leaves every user with the same current row, updated when its id matches. -/
theorem currentSession_updateSession (db : Db) (sid : SessionId)
    (f : TimerSession → TimerSession)
    (hu : ∀ r, (f r).user_id = r.user_id) (hc : ∀ r, (f r).created_at = r.created_at)
    (uid : UserId) :
    currentSession (updateSession db sid f) uid
      = (currentSession db uid).map (fun r => if r.id = sid then f r else r) := by
  unfold currentSession updateSession
  simp only
  rw [List.filter_map]
  rw [latest_map]
  · congr 2
    apply List.filter_congr
    intro r _
    simp only [Function.comp]
    split <;> simp [hu]
  · intro r
    split
    · exact hc r
    · rfl

/-! ## Remaining-time projection while running -/

/-- C2. For a running session whose `start_time` is `s` (not null, not zero),
with `duration_seconds = d` and read at `now`, both client projections give
`d - elapsed` when `elapsed ≤ d` and `0` when `elapsed ≥ d`, where
`elapsed = floor((now - s) / 1000)`; neither is ever negative.  This holds for
every `d` and `now`, in particular for `d ≥ 0` and `now ≥ s`. -/
theorem running_projection_clamped (prev : Int) (session : TimerSession) (s d now : Int)
    (hrun : session.status = .running) (hs : session.start_time = some s) (hs0 : s ≠ 0)
    (hd : session.duration_seconds = d) :
    (floorSeconds (now - s) ≤ d →
        updateMyTimerDisplay prev session now = d - floorSeconds (now - s) ∧
        updatePartnerDisplay session now = d - floorSeconds (now - s)) ∧
    (d ≤ floorSeconds (now - s) →
        updateMyTimerDisplay prev session now = 0 ∧ updatePartnerDisplay session now = 0) ∧
    0 ≤ updateMyTimerDisplay prev session now ∧ 0 ≤ updatePartnerDisplay session now := by
  have hm : updateMyTimerDisplay prev session now = max 0 (d - floorSeconds (now - s)) := by
    simp [updateMyTimerDisplay, hrun, hs, hd, jsTruthy, jsNum, hs0]
  have hp : updatePartnerDisplay session now = max 0 (d - floorSeconds (now - s)) := by
    simp [updatePartnerDisplay, hrun, hs, hd, jsTruthy, jsNum, hs0]
  rw [hm, hp]
  refine ⟨fun h => ?_, fun h => ?_, ?_, ?_⟩
  · omega
  · omega
  · omega
  · omega

/-- Witness of C2: 90.5 s into the sample session both projections read
`1500 - floor(90500 / 1000)`. -/
theorem running_projection_clamped_witness :
    updateMyTimerDisplay 0 (sampleSession .running) 1700000090500
        = 1500 - floorSeconds (1700000090500 - 1700000000000) ∧
    updatePartnerDisplay (sampleSession .running) 1700000090500
        = 1500 - floorSeconds (1700000090500 - 1700000000000) :=
  (running_projection_clamped 0 (sampleSession .running) 1700000000000 1500 1700000090500
      rfl rfl (by decide) rfl).1 (by decide)

/-! ## Timer transitions -/

/-- C3. Resuming a paused current session with `start_time = s` and
`duration_seconds = d` at time `now` succeeds and leaves the user's current
session with `status = running`, `duration_seconds = remaining` and
`start_time = now - (d - remaining) * 1000`, where
`elapsed = floor((now - s) / 1000)` and `remaining = max(0, d - elapsed)`;
its id, user, phase and task are unchanged. -/
theorem resume_rewrites_session (db : Db) (uid : UserId) (session : TimerSession)
    (s d now : Int) (hcur : currentSession db uid = some session)
    (hp : session.status = .paused) (hs : session.start_time = some s)
    (hd : session.duration_seconds = d) :
    succeeded (timerResume db uid now now) ∧
    ∃ r, currentSession (timerResume db uid now now).1 uid = some r ∧
      r.status = .running ∧
      r.duration_seconds = max 0 (d - floorSeconds (now - s)) ∧
      r.start_time = some (now - (d - max 0 (d - floorSeconds (now - s))) * 1000) ∧
      r.id = session.id ∧ r.user_id = session.user_id ∧ r.phase = session.phase ∧
      r.task_id = session.task_id := by
  simp only [timerResume, hcur, hp, succeeded, ne_eq, not_true_eq_false, if_false]
  refine ⟨⟨_, rfl⟩, ?_⟩
  rw [currentSession_updateSession, hcur]
  · simp [hs, hd, jsNum]
  · intro r; rfl
  · intro r; rfl

/-- Witness of C3: the sample session, paused, is resumed 10 s after its start. -/
theorem resume_rewrites_session_witness :
    currentSession (sampleDb .paused) 1 = some (sampleSession .paused) ∧
    succeeded (timerResume (sampleDb .paused) 1 1700000010000 1700000010000) ∧
    ∃ r, currentSession (timerResume (sampleDb .paused) 1 1700000010000 1700000010000).1 1
        = some r ∧
      r.status = .running ∧
      r.duration_seconds = max 0 (1500 - floorSeconds (1700000010000 - 1700000000000)) ∧
      r.start_time = some (1700000010000
        - (1500 - max 0 (1500 - floorSeconds (1700000010000 - 1700000000000))) * 1000) ∧
      r.id = (sampleSession .paused).id ∧ r.user_id = (sampleSession .paused).user_id ∧
      r.phase = (sampleSession .paused).phase ∧ r.task_id = (sampleSession .paused).task_id :=
  ⟨by decide, resume_rewrites_session (sampleDb .paused) 1 (sampleSession .paused)
    1700000000000 1500 1700000010000 (by decide) rfl rfl rfl⟩

/-- C7. `pause` succeeds exactly when the caller has a current session and it
is running; `resume` succeeds exactly when the caller has a current session and
it is paused.  When either does not succeed it answers 400 ("timer not
running", "timer not paused") and leaves the store as it was. -/
theorem pause_resume_guarded (db : Db) (uid : UserId) (t1 t2 : Int) :
    (succeeded (timerPause db uid) ↔
        ∃ s, currentSession db uid = some s ∧ s.status = .running) ∧
    (¬ succeeded (timerPause db uid) →
        timerPause db uid = (db, .error .timerNotRunning)) ∧
    (succeeded (timerResume db uid t1 t2) ↔
        ∃ s, currentSession db uid = some s ∧ s.status = .paused) ∧
    (¬ succeeded (timerResume db uid t1 t2) →
        timerResume db uid t1 t2 = (db, .error .timerNotPaused)) ∧
    ApiError.httpStatus .timerNotRunning = 400 ∧ ApiError.httpStatus .timerNotPaused = 400 := by
  refine ⟨?_, ?_, ?_, ?_, rfl, rfl⟩
  · unfold timerPause succeeded
    cases h : currentSession db uid with
    | none => simp
    | some s => by_cases hs : s.status = .running <;> simp [hs]
  · unfold timerPause succeeded
    cases h : currentSession db uid with
    | none => simp
    | some s => by_cases hs : s.status = .running <;> simp [hs]
  · unfold timerResume succeeded
    cases h : currentSession db uid with
    | none => simp
    | some s => by_cases hs : s.status = .paused <;> simp [hs]
  · unfold timerResume succeeded
    cases h : currentSession db uid with
    | none => simp
    | some s => by_cases hs : s.status = .paused <;> simp [hs]

/-- A `null` for `phase` or `durationSeconds`: `start` writes nothing and
answers 500. -/
theorem timerStart_null (db : Db) (uid : UserId) (body : StartBody) (now : Int)
    (newId : SessionId) (ts : Nat)
    (h : body.phase.withDefault "work" = none ∨ body.durationSeconds.withDefault 1500 = none) :
    timerStart db uid body now newId ts = (db, .error .serverError) := by
  unfold timerStart
  cases hcur : currentSession db uid <;>
    cases hp : body.phase.withDefault "work" <;>
    cases hd : body.durationSeconds.withDefault 1500 <;>
    simp_all

/-- With `phase` and `durationSeconds` bound to values and a current session,
`start` is its `UPDATE`. -/
theorem timerStart_update (db : Db) (uid : UserId) (body : StartBody) (now : Int)
    (newId : SessionId) (ts : Nat) (p : String) (d : Int) (s : TimerSession)
    (hp : body.phase.withDefault "work" = some p)
    (hd : body.durationSeconds.withDefault 1500 = some d)
    (hcur : currentSession db uid = some s) :
    timerStart db uid body now newId ts
      = (updateSession db s.id (fun r =>
          { r with status := .running, phase := p, start_time := some now,
                   duration_seconds := d,
                   task_id := (getActiveTask db uid).map (fun t => t.id) }),
         .ok (getSession (updateSession db s.id (fun r =>
          { r with status := .running, phase := p, start_time := some now,
                   duration_seconds := d,
                   task_id := (getActiveTask db uid).map (fun t => t.id) })) s.id)) := by
  simp only [timerStart, hp, hd, hcur]

/-- With `phase` and `durationSeconds` bound to values and no current session,
`start` is its `INSERT`. -/
theorem timerStart_insert (db : Db) (uid : UserId) (body : StartBody) (now : Int)
    (newId : SessionId) (ts : Nat) (p : String) (d : Int)
    (hp : body.phase.withDefault "work" = some p)
    (hd : body.durationSeconds.withDefault 1500 = some d)
    (hcur : currentSession db uid = none) :
    timerStart db uid body now newId ts
      = match insertSession db
            { id := newId, user_id := uid,
              task_id := (getActiveTask db uid).map (fun t => t.id),
              status := .running, phase := p, start_time := some now,
              duration_seconds := d, created_at := ts } with
        | .error e => (db, .error e)
        | .ok db' => (db', .ok (getSession db' newId)) := by
  simp only [timerStart, hp, hd, hcur]

theorem getActiveTask_eq_head? (db : Db) (uid : UserId) :
    getActiveTask db uid = (activeTasksOf db uid).head? := by
  unfold getActiveTask activeTasksOf
  induction db.tasks with
  | nil => rfl
  | cons a l ih =>
    by_cases h : a.user_id = uid ∧ a.is_active = 1
    · simp [List.find?_cons, List.filter_cons, h]
    · simp only [List.find?_cons, List.filter_cons, h, decide_False, Bool.false_eq_true, if_false]
      exact ih

/-- C8 as stated fails. `start` with `durationSeconds: null` (the default of
the destructuring replaces `undefined` only) violates `NOT NULL` of column
`duration_seconds`: the handler answers 500 and the session is not started. -/
theorem start_with_null_duration_fails :
    timerStart (sampleDb .stopped) 1 { phase := .value "work", durationSeconds := .null }
        1700000000000 8 5 = (sampleDb .stopped, .error .serverError) ∧
    ¬ succeeded (timerStart (sampleDb .stopped) 1
        { phase := .value "work", durationSeconds := .null } 1700000000000 8 5) ∧
    ApiError.httpStatus .serverError = 500 := by
  have e : timerStart (sampleDb .stopped) 1
      { phase := .value "work", durationSeconds := .null } 1700000000000 8 5
      = (sampleDb .stopped, .error .serverError) := rfl
  refine ⟨e, ?_, rfl⟩
  rintro ⟨a, h⟩
  rw [e] at h
  cases h

/-- C8, amended. `start` with a body whose `phase` is a string or absent
(then "work") and whose `durationSeconds` is an integer or absent (then 1500),
at time `now`, succeeds from every store (whatever the status of the current
session, and when there is none, the drawn id being new) and leaves the user's
current session with `status = running`, `start_time = now`,
`duration_seconds = durationSeconds`, `phase = phase` and `task_id` the id of
the user's active task, null when the user has no active task. -/
theorem start_runs_with_values (db : Db) (uid : UserId) (body : StartBody) (phase : String)
    (durationSeconds now : Int) (newId : SessionId) (ts : Nat)
    (hphase : body.phase.withDefault "work" = some phase)
    (hduration : body.durationSeconds.withDefault 1500 = some durationSeconds)
    (hfresh : currentSession db uid = none → ∀ r ∈ db.timer_sessions, r.id ≠ newId) :
    succeeded (timerStart db uid body now newId ts) ∧
    ∃ r, currentSession (timerStart db uid body now newId ts).1 uid = some r ∧
      r.status = .running ∧ r.start_time = some now ∧
      r.duration_seconds = durationSeconds ∧ r.phase = phase ∧
      r.task_id = (getActiveTask db uid).map (fun t => t.id) ∧
      (activeTasksOf db uid = [] → r.task_id = none) ∧
      (∀ t, activeTasksOf db uid = [t] → r.task_id = some t.id) := by
  have hnone : activeTasksOf db uid = [] → (getActiveTask db uid).map (fun t => t.id) = none := by
    intro h; rw [getActiveTask_eq_head?, h]; rfl
  have hone : ∀ t, activeTasksOf db uid = [t] →
      (getActiveTask db uid).map (fun t => t.id) = some t.id := by
    intro t h; rw [getActiveTask_eq_head?, h]; rfl
  cases hcur : currentSession db uid with
  | some s =>
    rw [timerStart_update db uid body now newId ts phase durationSeconds s hphase hduration hcur]
    simp only [succeeded]
    refine ⟨⟨_, rfl⟩, ?_⟩
    rw [currentSession_updateSession, hcur]
    · simp only [Option.map_some', if_true]
      exact ⟨_, rfl, rfl, rfl, rfl, rfl, rfl, hnone, hone⟩
    · intro r; rfl
    · intro r; rfl
  | none =>
    have hany : (db.timer_sessions.any fun x => decide (x.id = newId)) = false := by
      rw [List.any_eq_false]
      intro x hx
      simpa using hfresh hcur x hx
    have hfilter : db.timer_sessions.filter (fun r => r.user_id = uid) = [] := by
      rw [List.filter_eq_nil_iff]
      intro r hr
      simpa using (currentSession_eq_none_iff db uid).1 hcur r hr
    rw [timerStart_insert db uid body now newId ts phase durationSeconds hphase hduration hcur]
    simp only [insertSession, hany, succeeded, Bool.false_eq_true, if_false]
    refine ⟨⟨_, rfl⟩, ?_⟩
    simp only [currentSession, List.filter_append, hfilter, List.nil_append]
    simp only [List.filter_cons, List.filter_nil, decide_True, if_true, latest, List.foldl_cons,
      List.foldl_nil, pickLatest]
    exact ⟨_, rfl, rfl, rfl, rfl, rfl, rfl, hnone, hone⟩

/-- Witness of the amended C8: user 2 of the sample store has no session yet
and task 20 active; `start` inserts a running session linked to task 20. -/
theorem start_runs_with_values_witness :
    (currentSession (sampleDb .running) 2 = none →
        ∀ r ∈ (sampleDb .running).timer_sessions, r.id ≠ 8) ∧
    succeeded (timerStart (sampleDb .running) 2
        { phase := .value "break", durationSeconds := .value 300 } 1700000000000 8 5) ∧
    currentSession (timerStart (sampleDb .running) 2
        { phase := .value "break", durationSeconds := .value 300 } 1700000000000 8 5).1 2
      = some { id := 8, user_id := 2, task_id := some 20, status := .running, phase := "break",
               start_time := some 1700000000000, duration_seconds := 300, created_at := 5 } :=
  ⟨by decide,
   (start_runs_with_values (sampleDb .running) 2
      { phase := .value "break", durationSeconds := .value 300 } "break" 300 1700000000000 8 5
      rfl rfl (by decide)).1,
   by decide⟩

theorem row_eq_of_id_eq {db : Db} (hkeys : sessionKeysUnique db) {r s : TimerSession}
    (hr : r ∈ db.timer_sessions) (hs : s ∈ db.timer_sessions) (h : r.id = s.id) : r = s :=
  List.inj_on_of_nodup_map hkeys hr hs h

/-- With the primary key in force an `UPDATE ... WHERE id = ?` aimed at the row
`s` rewrites `s` and nothing else. -/
theorem updateSession_only_target (db : Db) (hkeys : sessionKeysUnique db) (s : TimerSession)
    (hs : s ∈ db.timer_sessions) (f : TimerSession → TimerSession) :
    (updateSession db s.id f).timer_sessions
      = db.timer_sessions.map (fun r => if r = s then f s else r) := by
  unfold updateSession
  simp only
  apply List.map_congr_left
  intro r hr
  by_cases h : r.id = s.id
  · have := row_eq_of_id_eq hkeys hr hs h
    subst this
    simp
  · have hne : r ≠ s := fun e => h (by rw [e])
    simp [h, hne]

/-- C9. A successful `pause` changes only the `status` of the current session
(running to paused): its `start_time`, `duration_seconds`, `phase`, `task_id`
and every other column are as before, every other row of `timer_sessions` is
as before, and the other tables are untouched. -/
theorem pause_changes_status_only (db : Db) (uid : UserId) (s : TimerSession)
    (hkeys : sessionKeysUnique db) (hcur : currentSession db uid = some s)
    (hrun : s.status = .running) :
    succeeded (timerPause db uid) ∧
    currentSession (timerPause db uid).1 uid = some { s with status := .paused } ∧
    (timerPause db uid).1.timer_sessions
      = db.timer_sessions.map (fun r => if r = s then { s with status := .paused } else r) ∧
    (timerPause db uid).1.rooms = db.rooms ∧
    (timerPause db uid).1.users = db.users ∧
    (timerPause db uid).1.tasks = db.tasks := by
  simp only [timerPause, hcur, hrun, succeeded, ne_eq, not_true_eq_false, if_false]
  refine ⟨⟨_, rfl⟩, ?_, ?_, rfl, rfl, rfl⟩
  · rw [currentSession_updateSession, hcur]
    · simp
    · intro r; rfl
    · intro r; rfl
  · exact updateSession_only_target db hkeys s (currentSession_mem hcur).1 _

/-- Witness of C9: pausing the running sample session. -/
theorem pause_changes_status_only_witness :
    sessionKeysUnique (sampleDb .running) ∧
    currentSession (sampleDb .running) 1 = some (sampleSession .running) ∧
    (sampleSession .running).status = .running ∧
    succeeded (timerPause (sampleDb .running) 1) ∧
    currentSession (timerPause (sampleDb .running) 1).1 1
      = some { sampleSession .running with status := .paused } ∧
    (timerPause (sampleDb .running) 1).1.timer_sessions
      = (sampleDb .running).timer_sessions.map
          (fun r => if r = sampleSession .running
            then { sampleSession .running with status := .paused } else r) ∧
    (timerPause (sampleDb .running) 1).1.rooms = (sampleDb .running).rooms ∧
    (timerPause (sampleDb .running) 1).1.users = (sampleDb .running).users ∧
    (timerPause (sampleDb .running) 1).1.tasks = (sampleDb .running).tasks :=
  ⟨by decide, by decide, rfl,
   pause_changes_status_only (sampleDb .running) 1 (sampleSession .running)
     (by decide) (by decide) rfl⟩

/-- C10. `stop` fails exactly when the caller has no timer session; it then
answers "timer not found" and leaves the store as it was.  Otherwise, whatever
the status of the current session, it succeeds and the current session is the
same row with `status = stopped` and every other column unchanged; the other
tables are untouched. -/
theorem stop_guarded (db : Db) (uid : UserId) :
    (¬ succeeded (timerStop db uid) ↔ currentSession db uid = none) ∧
    (currentSession db uid = none → timerStop db uid = (db, .error .timerNotFound)) ∧
    (∀ s, currentSession db uid = some s →
        succeeded (timerStop db uid) ∧
        currentSession (timerStop db uid).1 uid = some { s with status := .stopped } ∧
        (timerStop db uid).1.rooms = db.rooms ∧
        (timerStop db uid).1.users = db.users ∧
        (timerStop db uid).1.tasks = db.tasks) := by
  refine ⟨?_, ?_, ?_⟩
  · unfold timerStop succeeded
    cases h : currentSession db uid <;> simp
  · intro h
    simp [timerStop, h]
  · intro s hcur
    simp only [timerStop, hcur, succeeded]
    refine ⟨⟨_, rfl⟩, ?_, rfl, rfl, rfl⟩
    rw [currentSession_updateSession, hcur]
    · simp
    · intro r; rfl
    · intro r; rfl

/-! ## Pause, then resume -/

/-- The projection of a session as `resume` writes it: from a paused session
with `start_time = s` and `duration_seconds = d`, resumed at `T` with
`r = max(0, d - floor((T - s) / 1000))` left, a read at `t` gives
`max(0, r - (d - r) - floor((t - T) / 1000))`: the time already elapsed is
taken off twice, once in the new duration and once through the new start. -/
theorem resumed_projection (prev : Int) (session : TimerSession) (s d T t : Int)
    (hrun : session.status = .running)
    (hd : session.duration_seconds = max 0 (d - floorSeconds (T - s)))
    (hs : session.start_time = some (T - (d - max 0 (d - floorSeconds (T - s))) * 1000))
    (hs0 : T - (d - max 0 (d - floorSeconds (T - s))) * 1000 ≠ 0) :
    updateMyTimerDisplay prev session t
      = max 0 (max 0 (d - floorSeconds (T - s)) - (d - max 0 (d - floorSeconds (T - s)))
          - floorSeconds (t - T)) := by
  have hm : updateMyTimerDisplay prev session t
      = max 0 (max 0 (d - floorSeconds (T - s))
          - floorSeconds (t - (T - (d - max 0 (d - floorSeconds (T - s))) * 1000))) := by
    simp [updateMyTimerDisplay, hrun, hs, hd, jsTruthy, jsNum, hs0]
  rw [hm]
  generalize max 0 (d - floorSeconds (T - s)) = r
  unfold floorSeconds
  omega

/-- C1, evaluated on the code. A 1500 s session started at
`s = 1 700 000 000 000` ms, paused, and resumed at `T = s + 10 000`: an
uninterrupted run reads 1490 at `T` and 1485 at `T + 5000`, and `resume` itself
computes 1490, but the resumed session reads 1480 at `T` and 1475 at
`T + 5000`. -/
theorem resume_counts_elapsed_twice :
    uninterruptedRemaining 1700000000000 1500 1700000010000 = 1490 ∧
    uninterruptedRemaining 1700000000000 1500 1700000015000 = 1485 ∧
    (currentSession (startPauseResume 1700000000000 1500 1700000010000) 1).map
        (fun r => (r.status, r.start_time, r.duration_seconds))
      = some (.running, some 1700000000000, 1490) ∧
    shownRemaining (startPauseResume 1700000000000 1500 1700000010000) 1700000010000 = 1480 ∧
    shownRemaining (startPauseResume 1700000000000 1500 1700000010000) 1700000015000 = 1475 := by
  decide

/-! ## Broadcast of a user's state -/

theorem mem_sendToUser (hub : Hub) (readyState : WsId → Nat) (userId : UserId)
    (message : Message) (dl : Delivery) :
    dl ∈ sendToUser hub readyState userId message ↔
      dl.target = userId ∧ hub.connections.lookup userId = some dl.ws ∧
      readyState dl.ws = 1 ∧ dl.message = message := by
  unfold sendToUser
  cases hl : hub.connections.lookup userId with
  | none => simp
  | some ws =>
    by_cases hr : readyState ws = 1
    · simp only [hr, if_true, List.mem_singleton, Option.some.injEq]
      constructor
      · rintro rfl
        exact ⟨rfl, rfl, hr, rfl⟩
      · rintro ⟨h1, h2, _, h4⟩
        cases dl
        simp_all
    · simp only [hr, if_false, List.not_mem_nil, Option.some.injEq, false_iff]
      rintro ⟨_, h2, h3, _⟩
      exact hr (h2 ▸ h3)

theorem mem_broadcastToRoom (hub : Hub) (readyState : WsId → Nat) (roomId : Option RoomId)
    (message : Message) (dl : Delivery) :
    dl ∈ broadcastToRoom hub readyState roomId message ↔
      dl.target ∈ roomSet hub roomId ∧ hub.connections.lookup dl.target = some dl.ws ∧
      readyState dl.ws = 1 ∧ dl.message = message := by
  unfold broadcastToRoom roomSet
  cases hl : hub.rooms.lookup roomId with
  | none => simp
  | some userIds =>
    simp only [List.mem_flatMap, mem_sendToUser, Option.getD_some]
    constructor
    · rintro ⟨u, hu, h1, h2, h3, h4⟩
      subst h1
      exact ⟨hu, h2, h3, h4⟩
    · rintro ⟨hu, h2, h3, h4⟩
      exact ⟨dl.target, hu, rfl, h2, h3, h4⟩

/-- C4. After a mutation by user `A` (a row of `users`), `notifyTimerUpdate`
and `notifyTaskUpdate` call `send` exactly on the sockets registered in
`connections` under a user id of `A`'s room set whose `readyState` is 1, each
with the state of `A`: in particular on `A`'s own socket when `A` is in the
set and the socket is open, on no socket registered under a user id outside
the set, and on no socket that is not open. -/
theorem broadcast_reaches_open_room_members (db : Db) (hub : Hub) (readyState : WsId → Nat)
    (A : UserId) (user : User) (hA : getUser db A = some user) :
    (∀ dl, dl ∈ notifyTimerUpdate db hub readyState A ↔
        dl.target ∈ roomSet hub user.room_id ∧
        hub.connections.lookup dl.target = some dl.ws ∧
        readyState dl.ws = 1 ∧ dl.message = userStateMessage db user A) ∧
    notifyTaskUpdate db hub readyState A = notifyTimerUpdate db hub readyState A ∧
    (∀ ws, A ∈ roomSet hub user.room_id → hub.connections.lookup A = some ws →
        readyState ws = 1 →
        { target := A, ws := ws, message := userStateMessage db user A }
          ∈ notifyTimerUpdate db hub readyState A) ∧
    (∀ dl ∈ notifyTimerUpdate db hub readyState A,
        dl.target ∈ roomSet hub user.room_id ∧ readyState dl.ws = 1) := by
  have key : ∀ dl, dl ∈ notifyTimerUpdate db hub readyState A ↔
      dl.target ∈ roomSet hub user.room_id ∧
      hub.connections.lookup dl.target = some dl.ws ∧
      readyState dl.ws = 1 ∧ dl.message = userStateMessage db user A := by
    intro dl
    simp only [notifyTimerUpdate, sendUserState, hA]
    exact mem_broadcastToRoom hub readyState user.room_id _ dl
  refine ⟨key, rfl, ?_, ?_⟩
  · intro ws h1 h2 h3
    exact (key _).2 ⟨h1, h2, h3, rfl⟩
  · intro dl hdl
    have := (key dl).1 hdl
    exact ⟨this.1, this.2.2.1⟩

/-- Witness of C4: in the sample hub a mutation by user 1 is sent to the open
sockets 100 (user 1) and 200 (user 2), not to the closed socket 400 of the
same room, and not to socket 300 of the other room. -/
theorem broadcast_reaches_open_room_members_witness :
    getUser (sampleDb .running) 1
      = some { id := 1, name := "Ann", invite_code := "a", room_id := some 1, created_at := 0 } ∧
    ({ target := 1, ws := 100,
       message := userStateMessage (sampleDb .running)
        { id := 1, name := "Ann", invite_code := "a", room_id := some 1, created_at := 0 } 1 }
      : Delivery) ∈ notifyTimerUpdate (sampleDb .running) sampleHub sampleReadyState 1 ∧
    (notifyTimerUpdate (sampleDb .running) sampleHub sampleReadyState 1).map
      (fun dl => (dl.target, dl.ws)) = [(1, 100), (2, 200)] :=
  ⟨by decide,
   (broadcast_reaches_open_room_members (sampleDb .running) sampleHub sampleReadyState 1
      { id := 1, name := "Ann", invite_code := "a", room_id := some 1, created_at := 0 }
      (by decide)).2.2.1 100 (by decide) (by decide) (by decide),
   by decide⟩

/-! ## Tasks: one active task per user -/

theorem activeTasksOf_eq_filter_tasksOf (db : Db) (uid : UserId) :
    activeTasksOf db uid = (tasksOf db uid).filter (fun t => t.is_active = 1) := by
  unfold activeTasksOf tasksOf
  rw [List.filter_filter]
  apply List.filter_congr
  intro t _
  by_cases h1 : t.user_id = uid <;> by_cases h2 : t.is_active = 1 <;> simp [h1, h2]

theorem task_eq_of_id_eq {db : Db} (hkeys : taskKeysUnique db) {a b : Task}
    (ha : a ∈ db.tasks) (hb : b ∈ db.tasks) (h : a.id = b.id) : a = b :=
  List.inj_on_of_nodup_map hkeys ha hb h

theorem getOwnedTask_some {db : Db} {taskId : TaskId} {uid : UserId} {o : Task}
    (h : getOwnedTask db taskId uid = some o) :
    o ∈ db.tasks ∧ o.id = taskId ∧ o.user_id = uid := by
  unfold getOwnedTask at h
  have h1 := List.mem_of_find?_eq_some h
  have h2 := List.find?_some h
  simp only [decide_eq_true_eq] at h2
  exact ⟨h1, h2.1, h2.2⟩

/-- The two `UPDATE`s of a successful activation as one pass over the rows. -/
theorem taskActivate_tasks {db : Db} {uid : UserId} {taskId : TaskId} {o : Task}
    (hown : getOwnedTask db taskId uid = some o) :
    (taskActivate db uid taskId).1.tasks = db.tasks.map (fun t =>
      if t.id = taskId then { t with is_active := 1 }
      else if t.user_id = uid then { t with is_active := 0 } else t) := by
  simp only [taskActivate, hown, activateById, deactivateAll, List.map_map]
  apply List.map_congr_left
  intro t _
  simp only [Function.comp]
  by_cases h1 : t.user_id = uid <;> by_cases h2 : t.id = taskId <;> simp [h1, h2]

theorem taskActivate_keys {db : Db} {uid : UserId} {taskId : TaskId}
    (hkeys : taskKeysUnique db) : taskKeysUnique (taskActivate db uid taskId).1 := by
  cases hown : getOwnedTask db taskId uid with
  | none => simpa [taskActivate, hown] using hkeys
  | some o =>
    unfold taskKeysUnique
    rw [taskActivate_tasks hown, List.map_map]
    have : ((fun t : Task => t.id) ∘ fun t : Task =>
        if t.id = taskId then { t with is_active := 1 }
        else if t.user_id = uid then { t with is_active := 0 } else t)
        = fun t : Task => t.id := by
      funext t
      simp only [Function.comp]
      split
      · rfl
      · split <;> rfl
    rw [this]
    exact hkeys

theorem filter_eq_singleton {l : List Task} (hn : l.Nodup) {o : Task} (ho : o ∈ l) :
    l.filter (fun t => t = o) = [o] := by
  induction l with
  | nil => cases ho
  | cons a l ih =>
    rw [List.nodup_cons] at hn
    by_cases h : a = o
    · subst h
      have : l.filter (fun t => decide (t = a)) = [] := by
        rw [List.filter_eq_nil_iff]
        intro t ht
        simp only [decide_eq_true_eq]
        rintro rfl
        exact hn.1 ht
      simp [List.filter_cons, this]
    · have ho' : o ∈ l := by
        rcases List.mem_cons.1 ho with h1 | h1
        · exact absurd h1.symm h
        · exact h1
      simp only [List.filter_cons, h, decide_False, Bool.false_eq_true, if_false]
      exact ih hn.2 ho'

/-- After a successful activation the owner's only active row is the chosen
one. -/
theorem taskActivate_active_owner {db : Db} {uid : UserId} {taskId : TaskId} {o : Task}
    (hkeys : taskKeysUnique db) (hown : getOwnedTask db taskId uid = some o) :
    activeTasksOf (taskActivate db uid taskId).1 uid = [{ o with is_active := 1 }] := by
  obtain ⟨hmem, hid, huser⟩ := getOwnedTask_some hown
  unfold activeTasksOf
  rw [taskActivate_tasks hown, List.filter_map]
  have hfilter : db.tasks.filter ((fun t : Task => decide (t.user_id = uid ∧ t.is_active = 1)) ∘
      fun t : Task => if t.id = taskId then { t with is_active := 1 }
        else if t.user_id = uid then { t with is_active := 0 } else t)
      = db.tasks.filter (fun t => t = o) := by
    apply List.filter_congr
    intro t ht
    simp only [Function.comp]
    by_cases h1 : t.id = taskId
    · have : t = o := task_eq_of_id_eq hkeys ht hmem (h1.trans hid.symm)
      subst this
      simp [h1, huser]
    · have hne : t ≠ o := fun e => h1 (e ▸ hid)
      by_cases h2 : t.user_id = uid <;> simp [h1, h2, hne]
  rw [hfilter, filter_eq_singleton (List.Nodup.of_map _ hkeys) hmem]
  simp [hid]

/-- A successful activation leaves the rows of every other user as they were. -/
theorem taskActivate_other_users {db : Db} {uid : UserId} {taskId : TaskId} {o : Task}
    (hkeys : taskKeysUnique db) (hown : getOwnedTask db taskId uid = some o)
    {other : UserId} (hne : other ≠ uid) :
    tasksOf (taskActivate db uid taskId).1 other = tasksOf db other := by
  obtain ⟨hmem, hid, huser⟩ := getOwnedTask_some hown
  unfold tasksOf
  rw [taskActivate_tasks hown, List.filter_map]
  have hfix : ∀ t ∈ db.tasks, t.user_id = other →
      (if t.id = taskId then { t with is_active := 1 }
        else if t.user_id = uid then { t with is_active := 0 } else t) = t := by
    intro t ht hu
    have h1 : t.id ≠ taskId := by
      intro h1
      have : t = o := task_eq_of_id_eq hkeys ht hmem (h1.trans hid.symm)
      exact hne (by rw [← hu, this, huser])
    have h2 : t.user_id ≠ uid := fun h2 => hne (hu ▸ h2)
    simp [h1, h2]
  have hfilter : db.tasks.filter ((fun t : Task => decide (t.user_id = other)) ∘
      fun t : Task => if t.id = taskId then { t with is_active := 1 }
        else if t.user_id = uid then { t with is_active := 0 } else t)
      = db.tasks.filter (fun t => t.user_id = other) := by
    apply List.filter_congr
    intro t _
    simp only [Function.comp]
    split
    · rfl
    · split <;> rfl
  rw [hfilter]
  have : ∀ t ∈ db.tasks.filter (fun t => t.user_id = other),
      (if t.id = taskId then { t with is_active := 1 }
        else if t.user_id = uid then { t with is_active := 0 } else t) = t := by
    intro t ht
    rw [List.mem_filter] at ht
    exact hfix t ht.1 (by simpa using ht.2)
  conv_rhs => rw [← List.map_id (db.tasks.filter (fun t => t.user_id = other))]
  exact List.map_congr_left this

theorem taskCreate_inv (db : Db) (uid : UserId) (title : Option String) (newId : TaskId)
    (ts : Nat) (h : taskKeysUnique db ∧ ∀ u, (activeTasksOf db u).length ≤ 1) :
    taskKeysUnique (taskCreate db uid title newId ts).1 ∧
      ∀ u, (activeTasksOf (taskCreate db uid title newId ts).1 u).length ≤ 1 := by
  unfold taskCreate
  cases title with
  | none => exact h
  | some title =>
    simp only
    by_cases ht : jsTrim title = ""
    · simpa [ht] using h
    · simp only [ht, if_false, insertTask]
      by_cases hany : (db.tasks.any fun x => decide (x.id = newId)) = true
      · simpa [hany] using h
      · simp only [hany, Bool.false_eq_true, if_false]
        constructor
        · unfold taskKeysUnique
          simp only [List.map_append, List.map_cons, List.map_nil]
          rw [List.nodup_append]
          refine ⟨h.1, List.nodup_singleton _, ?_⟩
          intro x hx hx'
          rw [List.mem_singleton] at hx'
          subst hx'
          rw [List.mem_map] at hx
          obtain ⟨t, ht1, ht2⟩ := hx
          exact hany (List.any_eq_true.2 ⟨t, ht1, by simpa using ht2⟩)
        · intro u
          have : activeTasksOf { db with tasks := db.tasks ++
              [{ id := newId, user_id := uid, title := jsTrim title, is_active := 0,
                 created_at := ts }] } u = activeTasksOf db u := by
            simp [activeTasksOf, List.filter_append, List.filter_cons]
          rw [this]
          exact h.2 u

theorem taskDelete_inv (db : Db) (uid : UserId) (taskId : TaskId)
    (h : taskKeysUnique db ∧ ∀ u, (activeTasksOf db u).length ≤ 1) :
    taskKeysUnique (taskDelete db uid taskId).1 ∧
      ∀ u, (activeTasksOf (taskDelete db uid taskId).1 u).length ≤ 1 := by
  unfold taskDelete
  cases getOwnedTask db taskId uid with
  | none => exact h
  | some o =>
    simp only [deleteById]
    constructor
    · exact List.Nodup.sublist (List.Sublist.map _ (List.filter_sublist _)) h.1
    · intro u
      exact le_trans (List.Sublist.length_le (List.Sublist.filter _ (List.filter_sublist _)))
        (h.2 u)

theorem taskActivate_inv (db : Db) (uid : UserId) (taskId : TaskId)
    (h : taskKeysUnique db ∧ ∀ u, (activeTasksOf db u).length ≤ 1) :
    taskKeysUnique (taskActivate db uid taskId).1 ∧
      ∀ u, (activeTasksOf (taskActivate db uid taskId).1 u).length ≤ 1 := by
  refine ⟨taskActivate_keys h.1, ?_⟩
  intro u
  cases hown : getOwnedTask db taskId uid with
  | none => simpa [taskActivate, hown] using h.2 u
  | some o =>
    by_cases hu : u = uid
    · subst hu
      rw [taskActivate_active_owner h.1 hown]
      simp
    · rw [activeTasksOf_eq_filter_tasksOf, taskActivate_other_users h.1 hown hu,
        ← activeTasksOf_eq_filter_tasksOf]
      exact h.2 u

theorem runTaskOps_inv (ops : List TaskOp) :
    ∀ db, (taskKeysUnique db ∧ ∀ u, (activeTasksOf db u).length ≤ 1) →
      taskKeysUnique (runTaskOps db ops) ∧
        ∀ u, (activeTasksOf (runTaskOps db ops) u).length ≤ 1 := by
  induction ops with
  | nil => intro db h; exact h
  | cons op ops ih =>
    intro db h
    have step : taskKeysUnique (applyTaskOp db op) ∧
        ∀ u, (activeTasksOf (applyTaskOp db op) u).length ≤ 1 := by
      cases op with
      | create uid title newId ts => exact taskCreate_inv db uid title newId ts h
      | activate uid taskId => exact taskActivate_inv db uid taskId h
      | delete uid taskId => exact taskDelete_inv db uid taskId h
    exact ih _ step

/-- C5. In every store reached from the empty store by create-task,
activate-task and delete-task requests of any users, handled one after the
other, each user has at most one task with `is_active = 1`. -/
theorem at_most_one_active_task (ops : List TaskOp) (u : UserId) :
    (activeTasksOf (runTaskOps Db.empty ops) u).length ≤ 1 :=
  (runTaskOps_inv ops Db.empty
    ⟨by simp [taskKeysUnique, Db.empty], fun _ => by simp [activeTasksOf, Db.empty]⟩).2 u

theorem taskActivate_succeeded {db : Db} {uid : UserId} {taskId : TaskId} {o : Task}
    (hown : getOwnedTask db taskId uid = some o) :
    (taskActivate db uid taskId).2 = .ok (getTask (taskActivate db uid taskId).1 taskId) := by
  simp [taskActivate, hown]

/-- A successful activation keeps every row's id, owner, title and creation
time: the row a user owns under an id is the same row up to `is_active`. -/
theorem getOwnedTask_after_activate {db : Db} {uid : UserId} {taskId : TaskId} {o : Task}
    (hown : getOwnedTask db taskId uid = some o) (t : TaskId) (u : UserId) (x : Task)
    (hx : getOwnedTask db t u = some x) :
    ∃ y, getOwnedTask (taskActivate db uid taskId).1 t u = some y ∧
      ({ y with is_active := 1 } : Task) = { x with is_active := 1 } := by
  unfold getOwnedTask at hx ⊢
  rw [taskActivate_tasks hown, List.find?_map]
  have hp : ((fun t_1 : Task => decide (t_1.id = t ∧ t_1.user_id = u)) ∘
      fun t : Task => if t.id = taskId then { t with is_active := 1 }
        else if t.user_id = uid then { t with is_active := 0 } else t)
      = fun t_1 : Task => decide (t_1.id = t ∧ t_1.user_id = u) := by
    funext r
    simp only [Function.comp]
    split
    · rfl
    · split <;> rfl
  rw [hp, hx]
  refine ⟨_, rfl, ?_⟩
  by_cases h1 : x.id = taskId <;> by_cases h2 : x.user_id = uid <;> simp [h1, h2]

theorem activateSeq_cons (db : Db) (c : UserId × TaskId) (cs : List (UserId × TaskId)) :
    activateSeq db (c :: cs)
      = ((activateSeq (taskActivate db c.1 c.2).1 cs).1,
         (taskActivate db c.1 c.2).2.isOk && (activateSeq (taskActivate db c.1 c.2).1 cs).2) :=
  rfl

theorem activateSeq_append (pre post : List (UserId × TaskId)) :
    ∀ db, activateSeq db (pre ++ post)
      = ((activateSeq (activateSeq db pre).1 post).1,
         (activateSeq db pre).2 && (activateSeq (activateSeq db pre).1 post).2) := by
  induction pre with
  | nil => intro db; simp [activateSeq]
  | cons c cs ih =>
    intro db
    rw [List.cons_append, activateSeq_cons, ih, activateSeq_cons]
    simp [Bool.and_assoc]

/-- A sequence of activations of owned tasks: every call succeeds, the primary
key stays in force, every row stays the same up to `is_active`, and the rows
of users who make no call are unchanged. -/
theorem activateSeq_preserves (calls : List (UserId × TaskId)) :
    ∀ db, taskKeysUnique db →
      (∀ c ∈ calls, ∃ x, getOwnedTask db c.2 c.1 = some x) →
      (activateSeq db calls).2 = true ∧
      taskKeysUnique (activateSeq db calls).1 ∧
      (∀ t u x, getOwnedTask db t u = some x →
        ∃ y, getOwnedTask (activateSeq db calls).1 t u = some y ∧
          ({ y with is_active := 1 } : Task) = { x with is_active := 1 }) ∧
      (∀ other, (∀ c ∈ calls, c.1 ≠ other) →
        tasksOf (activateSeq db calls).1 other = tasksOf db other) := by
  induction calls with
  | nil =>
    intro db hkeys _
    exact ⟨rfl, hkeys, fun t u x hx => ⟨x, hx, rfl⟩, fun _ _ => rfl⟩
  | cons c cs ih =>
    intro db hkeys hall
    obtain ⟨x, hx⟩ := hall c (List.mem_cons_self _ _)
    have hall' : ∀ c' ∈ cs, ∃ x', getOwnedTask (taskActivate db c.1 c.2).1 c'.2 c'.1 = some x' := by
      intro c' hc'
      obtain ⟨x', hx'⟩ := hall c' (List.mem_cons_of_mem _ hc')
      obtain ⟨y', hy', _⟩ := getOwnedTask_after_activate hx c'.2 c'.1 x' hx'
      exact ⟨y', hy'⟩
    obtain ⟨h1, h2, h3, h4⟩ := ih (taskActivate db c.1 c.2).1 (taskActivate_keys hkeys) hall'
    rw [activateSeq_cons]
    refine ⟨?_, h2, ?_, ?_⟩
    · simp only [h1, Bool.and_true]
      rw [taskActivate_succeeded hx]; rfl
    · intro t u z hz
      obtain ⟨y, hy, hyz⟩ := getOwnedTask_after_activate hx t u z hz
      obtain ⟨w, hw, hwy⟩ := h3 t u y hy
      exact ⟨w, hw, hwy.trans hyz⟩
    · intro other hother
      have hne : other ≠ c.1 := fun e => hother c (List.mem_cons_self _ _) e.symm
      rw [h4 other (fun c' hc' => hother c' (List.mem_cons_of_mem _ hc'))]
      exact taskActivate_other_users hkeys hx hne

/-- C6. For a user `uid` and a task `last` of theirs (row `o`), in a store
with the primary key of `tasks` in force: a successful `activate(uid, last)`
leaves exactly one task of `uid` with `is_active = 1`, the row `o`, and the
tasks of every other user unchanged.  The same holds after any sequence of
activations of owned tasks, by any users, in which `activate(uid, last)` is the
last call of `uid`: every call succeeds, the single active task of `uid` is
`o`, and the tasks of every user who makes no call are unchanged. -/
theorem activate_leaves_single_active (db : Db) (uid : UserId)
    (pre post : List (UserId × TaskId)) (last : TaskId) (o : Task)
    (hkeys : taskKeysUnique db)
    (hall : ∀ c ∈ pre ++ post, (getOwnedTask db c.2 c.1).isSome = true)
    (hpost : ∀ c ∈ post, c.1 ≠ uid)
    (hlast : getOwnedTask db last uid = some o) :
    (succeeded (taskActivate db uid last) ∧
      activeTasksOf (taskActivate db uid last).1 uid = [{ o with is_active := 1 }] ∧
      ∀ other, other ≠ uid → tasksOf (taskActivate db uid last).1 other = tasksOf db other) ∧
    ((activateSeq db (pre ++ (uid, last) :: post)).2 = true ∧
      activeTasksOf (activateSeq db (pre ++ (uid, last) :: post)).1 uid
        = [{ o with is_active := 1 }] ∧
      ∀ other, other ≠ uid → (∀ c ∈ pre ++ post, c.1 ≠ other) →
        tasksOf (activateSeq db (pre ++ (uid, last) :: post)).1 other = tasksOf db other) := by
  refine ⟨⟨⟨_, taskActivate_succeeded hlast⟩, taskActivate_active_owner hkeys hlast,
    fun _ hne => taskActivate_other_users hkeys hlast hne⟩, ?_⟩
  have hpre : ∀ c ∈ pre, ∃ x, getOwnedTask db c.2 c.1 = some x := fun c hc =>
    Option.isSome_iff_exists.1 (hall c (List.mem_append_left _ hc))
  obtain ⟨a1, a2, a3, a4⟩ := activateSeq_preserves pre db hkeys hpre
  obtain ⟨y, hy, hyo⟩ := a3 last uid o hlast
  have hpost' : ∀ c ∈ post, ∃ x,
      getOwnedTask (taskActivate (activateSeq db pre).1 uid last).1 c.2 c.1 = some x := by
    intro c hc
    obtain ⟨x, hx⟩ := Option.isSome_iff_exists.1 (hall c (List.mem_append_right _ hc))
    obtain ⟨x1, hx1, _⟩ := a3 c.2 c.1 x hx
    obtain ⟨x2, hx2, _⟩ := getOwnedTask_after_activate hy c.2 c.1 x1 hx1
    exact ⟨x2, hx2⟩
  obtain ⟨b1, _, _, b4⟩ := activateSeq_preserves post
    (taskActivate (activateSeq db pre).1 uid last).1 (taskActivate_keys a2) hpost'
  rw [activateSeq_append, activateSeq_cons]
  refine ⟨?_, ?_, ?_⟩
  · simp only [a1, b1, Bool.and_true, Bool.true_and]
    rw [taskActivate_succeeded hy]; rfl
  · rw [activeTasksOf_eq_filter_tasksOf, b4 uid hpost, ← activeTasksOf_eq_filter_tasksOf,
      taskActivate_active_owner a2 hy, hyo]
  · intro other hne hother
    rw [b4 other (fun c hc => hother c (List.mem_append_right _ hc)),
      taskActivate_other_users a2 hy hne,
      a4 other (fun c hc => hother c (List.mem_append_left _ hc))]

/-- Witness of C6: in the sample store user 1 activates task 11, then task 10,
then user 2 activates task 20; task 10 ends as the single active task of
user 1. -/
theorem activate_leaves_single_active_witness :
    taskKeysUnique (sampleDb .stopped) ∧
    (∀ c ∈ [(1, 11)] ++ [(2, 20)], (getOwnedTask (sampleDb .stopped) c.2 c.1).isSome = true) ∧
    (∀ c ∈ [((2 : UserId), (20 : TaskId))], c.1 ≠ 1) ∧
    getOwnedTask (sampleDb .stopped) 10 1
      = some { id := 10, user_id := 1, title := "read", is_active := 0, created_at := 0 } ∧
    (activateSeq (sampleDb .stopped) ([(1, 11)] ++ (1, 10) :: [(2, 20)])).2 = true ∧
    activeTasksOf (activateSeq (sampleDb .stopped) ([(1, 11)] ++ (1, 10) :: [(2, 20)])).1 1
      = [{ id := 10, user_id := 1, title := "read", is_active := 1, created_at := 0 }] :=
  ⟨by decide, by decide, by decide, by decide,
   (activate_leaves_single_active (sampleDb .stopped) 1 [(1, 11)] [(2, 20)] 10
      { id := 10, user_id := 1, title := "read", is_active := 0, created_at := 0 }
      (by decide) (by decide) (by decide) (by decide)).2.1,
   (activate_leaves_single_active (sampleDb .stopped) 1 [(1, 11)] [(2, 20)] 10
      { id := 10, user_id := 1, title := "read", is_active := 0, created_at := 0 }
      (by decide) (by decide) (by decide) (by decide)).2.2.1⟩

/-! ## Rows reachable through the timer routes -/

theorem mem_updateSession {db : Db} {sid : SessionId} {f : TimerSession → TimerSession}
    {r' : TimerSession} (h : r' ∈ (updateSession db sid f).timer_sessions) :
    r' ∈ db.timer_sessions ∨ ∃ r ∈ db.timer_sessions, r' = f r := by
  unfold updateSession at h
  simp only [List.mem_map] at h
  obtain ⟨r, hr, rfl⟩ := h
  split
  · exact Or.inr ⟨r, hr, rfl⟩
  · exact Or.inl hr

theorem mem_insertSession {db db' : Db} {row r' : TimerSession}
    (h : insertSession db row = .ok db') (hr : r' ∈ db'.timer_sessions) :
    r' ∈ db.timer_sessions ∨ r' = row := by
  unfold insertSession at h
  split at h
  · cases h
  · cases h
    simpa using hr

/-- Where a row of the store after a timer request comes from: it was there
before, or it is the row `GET /api/timer` inserts, or a row `start` wrote, or a
row of the store before with the assignment of `pause`, `resume` or `stop`. -/
theorem mem_applyTimerOp {db : Db} {op : TimerOp} {r' : TimerSession}
    (h : r' ∈ (applyTimerOp db op).timer_sessions) :
    r' ∈ db.timer_sessions ∨
    (r'.status = .stopped ∧ r'.start_time = none ∧ r'.duration_seconds = 1500) ∨
    (∃ uid body now newId ts d, op = .start uid body now newId ts ∧
      body.durationSeconds.withDefault 1500 = some d ∧ r'.status = .running ∧
      r'.start_time = some now ∧ r'.duration_seconds = d) ∨
    (∃ r ∈ db.timer_sessions, r' = { r with status := .paused }) ∨
    (∃ r ∈ db.timer_sessions, ∃ st d, 0 ≤ d ∧
      r' = { r with status := .running, start_time := some st, duration_seconds := d }) ∨
    (∃ r ∈ db.timer_sessions, r' = { r with status := .stopped }) := by
  cases op with
  | get uid newId ts =>
    simp only [applyTimerOp, timerGet] at h
    split at h
    · exact Or.inl h
    · split at h
      · exact Or.inl h
      · rename_i db' hins
        rcases mem_insertSession hins h with h1 | h1
        · exact Or.inl h1
        · subst h1
          exact Or.inr (Or.inl ⟨rfl, rfl, rfl⟩)
  | start uid body now newId ts =>
    simp only [applyTimerOp] at h
    cases hp : body.phase.withDefault "work" with
    | none =>
      rw [timerStart_null db uid body now newId ts (Or.inl hp)] at h
      exact Or.inl h
    | some p =>
      cases hd : body.durationSeconds.withDefault 1500 with
      | none =>
        rw [timerStart_null db uid body now newId ts (Or.inr hd)] at h
        exact Or.inl h
      | some d =>
        cases hcur : currentSession db uid with
        | some s =>
          rw [timerStart_update db uid body now newId ts p d s hp hd hcur] at h
          rcases mem_updateSession h with h1 | ⟨r, _, h1⟩
          · exact Or.inl h1
          · subst h1
            exact Or.inr (Or.inr (Or.inl ⟨uid, body, now, newId, ts, d, rfl, hd, rfl, rfl, rfl⟩))
        | none =>
          rw [timerStart_insert db uid body now newId ts p d hp hd hcur] at h
          split at h
          · exact Or.inl h
          · rename_i db' hins
            rcases mem_insertSession hins h with h1 | h1
            · exact Or.inl h1
            · subst h1
              exact Or.inr (Or.inr (Or.inl
                ⟨uid, body, now, newId, ts, d, rfl, hd, rfl, rfl, rfl⟩))
  | pause uid =>
    simp only [applyTimerOp, timerPause] at h
    split at h
    · exact Or.inl h
    · split at h
      · exact Or.inl h
      · rcases mem_updateSession h with h1 | ⟨r, hr, h1⟩
        · exact Or.inl h1
        · exact Or.inr (Or.inr (Or.inr (Or.inl ⟨r, hr, h1⟩)))
  | resume uid t1 t2 =>
    simp only [applyTimerOp, timerResume] at h
    split at h
    · exact Or.inl h
    · split at h
      · exact Or.inl h
      · rcases mem_updateSession h with h1 | ⟨r, hr, h1⟩
        · exact Or.inl h1
        · exact Or.inr (Or.inr (Or.inr (Or.inr (Or.inl
            ⟨r, hr, _, _, le_max_left _ _, h1⟩))))
  | stop uid =>
    simp only [applyTimerOp, timerStop] at h
    split at h
    · exact Or.inl h
    · rcases mem_updateSession h with h1 | ⟨r, hr, h1⟩
      · exact Or.inl h1
      · exact Or.inr (Or.inr (Or.inr (Or.inr (Or.inr ⟨r, hr, h1⟩))))

/-- A property of rows that the inserted and rewritten rows have holds of every
row reachable from a store without sessions. -/
theorem runTimerOps_rows (P : TimerSession → Prop) (ok : TimerOp → Prop)
    (hstep : ∀ db op, ok op → (∀ r ∈ db.timer_sessions, P r) →
      ∀ r ∈ (applyTimerOp db op).timer_sessions, P r)
    (ops : List TimerOp) :
    ∀ db, (∀ op ∈ ops, ok op) → (∀ r ∈ db.timer_sessions, P r) →
      ∀ r ∈ (runTimerOps db ops).timer_sessions, P r := by
  induction ops with
  | nil => intro db _ h; exact h
  | cons op ops ih =>
    intro db hok h
    exact ih (applyTimerOp db op) (fun o ho => hok o (List.mem_cons_of_mem _ ho))
      (hstep db op (hok op (List.mem_cons_self _ _)) h)

/-! ## `start_time` and `status` -/

/-- C11 as stated fails. After user 1 starts a session and pauses it, the
current session is paused and its `start_time` is still the time of the start:
`start_time` is populated although the status is not `running`. -/
theorem paused_session_keeps_start_time :
    (currentSession (runTimerOps Db.empty startThenPause) 1).map
        (fun r => (r.status, r.start_time)) = some (.paused, some 1700000000000) ∧
    ¬ (∀ r ∈ (runTimerOps Db.empty startThenPause).timer_sessions,
        (r.start_time.isSome = true ↔ r.status = .running)) := by
  decide

/-- C11, amended. In every row of every store reached from a store without
timer sessions by get-timer, start, pause, resume and stop requests, the status
`running` implies that `start_time` is populated.  The converse is not
promised: `pause` and `stop` leave the `start_time` of the current session as
it was. -/
theorem running_has_start_time (db0 : Db) (ops : List TimerOp)
    (h0 : db0.timer_sessions = []) :
    (∀ r ∈ (runTimerOps db0 ops).timer_sessions,
        r.status = .running → r.start_time.isSome = true) ∧
    (∀ db uid s, currentSession db uid = some s →
        (currentSession (timerPause db uid).1 uid).map (fun r => r.start_time)
          = some s.start_time ∧
        (currentSession (timerStop db uid).1 uid).map (fun r => r.start_time)
          = some s.start_time) := by
  constructor
  · apply runTimerOps_rows (fun r => r.status = .running → r.start_time.isSome = true)
      (fun _ => True) _ ops db0 (fun _ _ => trivial)
    · intro r hr; rw [h0] at hr; cases hr
    · intro db op _ hdb r' hr'
      rcases mem_applyTimerOp hr' with h | ⟨h1, _, _⟩ | ⟨_, _, _, _, _, _, _, _, _, h2, _⟩ |
        ⟨r, _, h⟩ | ⟨r, _, st, d, _, h⟩ | ⟨r, _, h⟩
      · exact hdb r' h
      · intro hrun; rw [h1] at hrun; cases hrun
      · intro _; rw [h2]; rfl
      · subst h; intro hrun; cases hrun
      · subst h; intro _; rfl
      · subst h; intro hrun; cases hrun
  · intro db uid s hcur
    constructor
    · unfold timerPause
      simp only [hcur]
      split
      · simp [hcur]
      · rw [currentSession_updateSession, hcur]
        · simp
        · intro r; rfl
        · intro r; rfl
    · unfold timerStop
      simp only [hcur]
      rw [currentSession_updateSession, hcur]
      · simp
      · intro r; rfl
      · intro r; rfl

/-- Witness of the amended C11: in the empty store, after start and pause no
row is running, and `pause` kept the `start_time` of the running session. -/
theorem running_has_start_time_witness :
    Db.empty.timer_sessions = [] ∧
    (∀ r ∈ (runTimerOps Db.empty startThenPause).timer_sessions,
        r.status = .running → r.start_time.isSome = true) ∧
    (currentSession (timerPause (sampleDb .running) 1).1 1).map (fun r => r.start_time)
      = some (sampleSession .running).start_time :=
  ⟨rfl, (running_has_start_time Db.empty startThenPause rfl).1,
   ((running_has_start_time Db.empty startThenPause rfl).2 (sampleDb .running) 1
      (sampleSession .running) (by decide)).1⟩

/-! ## Sign of the projected remaining time -/

theorem projections_nonneg (r : TimerSession) (hd : 0 ≤ r.duration_seconds) :
    (∀ now, 0 ≤ updatePartnerDisplay r now) ∧
    (∀ prev now, 0 ≤ prev → 0 ≤ updateMyTimerDisplay prev r now) := by
  constructor
  · intro now
    unfold updatePartnerDisplay
    split
    · exact le_max_left _ _
    · split
      · split
        · exact le_max_left _ _
        · exact hd
      · exact hd
  · intro prev now hprev
    unfold updateMyTimerDisplay
    split
    · exact le_max_left _ _
    · split
      · exact hprev
      · exact hd

theorem displayAfter_nonneg (observations : List (TimerSession × Int))
    (h : ∀ o ∈ observations, 0 ≤ o.1.duration_seconds) : 0 ≤ displayAfter observations := by
  unfold displayAfter
  have key : ∀ (obs : List (TimerSession × Int)) (init : Int), 0 ≤ init →
      (∀ o ∈ obs, 0 ≤ o.1.duration_seconds) →
      0 ≤ obs.foldl (fun prev o => updateMyTimerDisplay prev o.1 o.2) init := by
    intro obs
    induction obs with
    | nil => intro init hi _; exact hi
    | cons o os ih =>
      intro init hi ho
      rw [List.foldl_cons]
      exact ih _ ((projections_nonneg o.1 (ho o (List.mem_cons_self _ _))).2 init o.2 hi)
        (fun x hx => ho x (List.mem_cons_of_mem _ hx))
  exact key observations 0 (le_refl 0) h

theorem runTimerOps_duration_nonneg (db0 : Db) (ops : List TimerOp)
    (h0 : db0.timer_sessions = []) (hops : ∀ op ∈ ops, op.durationNonneg = true) :
    ∀ r ∈ (runTimerOps db0 ops).timer_sessions, 0 ≤ r.duration_seconds := by
  apply runTimerOps_rows (fun r => 0 ≤ r.duration_seconds)
    (fun op => op.durationNonneg = true) _ ops db0 hops
  · intro r hr; rw [h0] at hr; cases hr
  · intro db op hop hdb r' hr'
    rcases mem_applyTimerOp hr' with h | ⟨_, _, h3⟩ | ⟨_, _, _, _, _, d, hop', hd, _, _, h3⟩ |
      ⟨r, hr, h⟩ | ⟨r, _, st, d, hd, h⟩ | ⟨r, hr, h⟩
    · exact hdb r' h
    · simp only [h3]; decide
    · subst hop'
      simp only [h3]
      simpa [TimerOp.durationNonneg, hd] using hop
    · subst h; exact hdb r hr
    · subst h; exact hd
    · subst h; exact hdb r hr

/-- C12 as stated fails. User 1 starts a session with `durationSeconds = -5`
and stops it: the stopped session has `duration_seconds = -5` and both
projections read -5 at any reference time. -/
theorem stopped_projection_negative :
    (currentSession (runTimerOps Db.empty negativeStartThenStop) 1).map
        (fun r => (r.status, updateMyTimerDisplay 0 r 1700000001000,
          updatePartnerDisplay r 1700000001000)) = some (.stopped, -5, -5) ∧
    ¬ (∀ r ∈ (runTimerOps Db.empty negativeStartThenStop).timer_sessions,
        0 ≤ updateMyTimerDisplay 0 r 1700000001000 ∧
        0 ≤ updatePartnerDisplay r 1700000001000) := by
  decide

/-- C12, amended. For every row of every store reached from a store without
timer sessions by get-timer, start, pause, resume and stop requests in which
every `start` carries a `durationSeconds` that is not negative, and for every
reference time, the projected remaining time is not negative in every status:
the partner display, the own display from a previous value that is not
negative, and the own display after any series of observations of such rows. -/
theorem remaining_nonneg_of_nonneg_durations (db0 : Db) (ops : List TimerOp)
    (h0 : db0.timer_sessions = []) (hops : ∀ op ∈ ops, op.durationNonneg = true) :
    (∀ r ∈ (runTimerOps db0 ops).timer_sessions,
        (∀ now, 0 ≤ updatePartnerDisplay r now) ∧
        (∀ prev now, 0 ≤ prev → 0 ≤ updateMyTimerDisplay prev r now)) ∧
    (∀ observations : List (TimerSession × Int),
        (∀ o ∈ observations, ∃ ops', (∀ op ∈ ops', op.durationNonneg = true) ∧
          o.1 ∈ (runTimerOps db0 ops').timer_sessions) →
        0 ≤ displayAfter observations) := by
  constructor
  · intro r hr
    exact projections_nonneg r (runTimerOps_duration_nonneg db0 ops h0 hops r hr)
  · intro observations hobs
    apply displayAfter_nonneg
    intro o ho
    obtain ⟨ops', hops', hmem⟩ := hobs o ho
    exact runTimerOps_duration_nonneg db0 ops' h0 hops' o.1 hmem

/-- Witness of the amended C12: start and pause in the empty store. -/
theorem remaining_nonneg_of_nonneg_durations_witness :
    Db.empty.timer_sessions = [] ∧
    (∀ op ∈ startThenPause, op.durationNonneg = true) ∧
    (∀ r ∈ (runTimerOps Db.empty startThenPause).timer_sessions,
        (∀ now, 0 ≤ updatePartnerDisplay r now) ∧
        (∀ prev now, 0 ≤ prev → 0 ≤ updateMyTimerDisplay prev r now)) :=
  ⟨rfl, by decide,
   (remaining_nonneg_of_nonneg_durations Db.empty startThenPause rfl (by decide)).1⟩

/-! ## Login -/

theorem roomsWithOneUser_eq_nil_iff (db : Db) :
    roomsWithOneUser db = [] ↔ ¬ ∃ r ∈ db.rooms, (membersOf db r.id).length = 1 := by
  unfold roomsWithOneUser
  rw [← List.length_eq_zero, List.length_insertionSort, List.length_eq_zero,
    List.map_eq_nil_iff, List.filter_eq_nil_iff]
  simp

theorem mem_roomsWithOneUser {db : Db} {roomId : RoomId} (h : roomId ∈ roomsWithOneUser db) :
    (∃ r ∈ db.rooms, r.id = roomId) ∧ (membersOf db roomId).length = 1 := by
  unfold roomsWithOneUser at h
  rw [List.mem_insertionSort] at h
  simp only [List.mem_map, List.mem_filter, decide_eq_true_eq] at h
  obtain ⟨r, ⟨hr, hlen⟩, rfl⟩ := h
  exact ⟨⟨r, hr, rfl⟩, hlen⟩

theorem insertUser_ok (db : Db) (u : User) (hid : ∀ x ∈ db.users, x.id ≠ u.id)
    (hcode : ∀ x ∈ db.users, x.invite_code ≠ u.invite_code) :
    insertUser db u = .ok { db with users := db.users ++ [u] } := by
  unfold insertUser
  have : (db.users.any fun x => decide (x.id = u.id ∨ x.invite_code = u.invite_code)) = false := by
    rw [List.any_eq_false]
    intro x hx
    simp [hid x hx, hcode x hx]
  simp only [this, Bool.false_eq_true, if_false]

theorem insertRoom_ok (db : Db) (r : Room) (hid : ∀ x ∈ db.rooms, x.id ≠ r.id) :
    insertRoom db r = .ok { db with rooms := db.rooms ++ [r] } := by
  unfold insertRoom
  have : (db.rooms.any fun x => decide (x.id = r.id)) = false := by
    rw [List.any_eq_false]
    intro x hx
    simp [hid x hx]
  simp only [this, Bool.false_eq_true, if_false]

theorem readBack_appended (db : Db) (u : User) (hid : ∀ x ∈ db.users, x.id ≠ u.id) :
    readBack { db with users := db.users ++ [u] } u.id = .ok u := by
  unfold readBack getUser
  have : db.users.find? (fun x => decide (x.id = u.id)) = none := by
    rw [List.find?_eq_none]
    intro x hx
    simp [hid x hx]
  simp [List.find?_append, this]

theorem getUserByInviteCode_none {db : Db} {code : String}
    (h : getUserByInviteCode db code = none) : ∀ x ∈ db.users, x.invite_code ≠ code := by
  unfold getUserByInviteCode at h
  rw [List.find?_eq_none] at h
  intro x hx
  simpa using h x hx

/-- A new invite code while some room has one member: the user joins the
first such room; no room is created. -/
theorem login_joins (db : Db) (code name : String) (newUserId : UserId) (newRoomId : RoomId)
    (ts : Nat) (roomId : RoomId) (rest : List RoomId)
    (hcode : code ≠ "") (hname : name ≠ "") (hnew : getUserByInviteCode db code = none)
    (hU : ∀ u ∈ db.users, u.id ≠ newUserId) (hone : roomsWithOneUser db = roomId :: rest) :
    login db (some code) (some name) newUserId newRoomId ts
      = ({ db with users := db.users ++
            [{ id := newUserId, name := name, invite_code := code, room_id := some roomId,
               created_at := ts }] },
         .ok { id := newUserId, name := name, invite_code := code, room_id := some roomId,
               created_at := ts }) := by
  simp only [login, hcode, hname, or_self, if_false, hnew, hone]
  rw [insertUser_ok db _ hU (getUserByInviteCode_none hnew)]
  simp only
  rw [readBack_appended db
    { id := newUserId, name := name, invite_code := code, room_id := some roomId,
      created_at := ts } hU]

/-- A new invite code while no room has exactly one member: a room is created
and the user is its first member. -/
theorem login_creates (db : Db) (code name : String) (newUserId : UserId) (newRoomId : RoomId)
    (ts : Nat)
    (hcode : code ≠ "") (hname : name ≠ "") (hnew : getUserByInviteCode db code = none)
    (hU : ∀ u ∈ db.users, u.id ≠ newUserId) (hR : ∀ r ∈ db.rooms, r.id ≠ newRoomId)
    (hnone : roomsWithOneUser db = []) :
    login db (some code) (some name) newUserId newRoomId ts
      = ({ db with
            rooms := db.rooms ++ [{ id := newRoomId, created_at := ts }],
            users := db.users ++
              [{ id := newUserId, name := name, invite_code := code,
                 room_id := some newRoomId, created_at := ts }] },
         .ok { id := newUserId, name := name, invite_code := code, room_id := some newRoomId,
               created_at := ts }) := by
  have hc := getUserByInviteCode_none hnew
  simp only [login, hcode, hname, or_self, if_false, hnew, hnone]
  rw [insertRoom_ok db _ hR]
  simp only
  rw [insertUser_ok { db with rooms := db.rooms ++ [{ id := newRoomId, created_at := ts }] }
    _ hU hc]
  simp only
  rw [readBack_appended { db with rooms := db.rooms ++ [{ id := newRoomId, created_at := ts }] }
    { id := newUserId, name := name, invite_code := code, room_id := some newRoomId,
      created_at := ts } hU]

theorem three_logins (c1 c2 c3 n1 n2 n3 : String) (u1 u2 u3 : UserId) (r1 r2 r3 : RoomId)
    (t1 t2 t3 : Nat) (hc1 : c1 ≠ "") (hc2 : c2 ≠ "") (hc3 : c3 ≠ "")
    (hn1 : n1 ≠ "") (hn2 : n2 ≠ "") (hn3 : n3 ≠ "")
    (hc12 : c1 ≠ c2) (hc13 : c1 ≠ c3) (hc23 : c2 ≠ c3)
    (hu12 : u1 ≠ u2) (hu13 : u1 ≠ u3) (hu23 : u2 ≠ u3) (hr13 : r1 ≠ r3) :
    runLogins Db.empty
        [{ inviteCode := some c1, name := some n1, newUserId := u1, newRoomId := r1, ts := t1 },
         { inviteCode := some c2, name := some n2, newUserId := u2, newRoomId := r2, ts := t2 },
         { inviteCode := some c3, name := some n3, newUserId := u3, newRoomId := r3, ts := t3 }]
      = { rooms := [{ id := r1, created_at := t1 }, { id := r3, created_at := t3 }],
          users := [{ id := u1, name := n1, invite_code := c1, room_id := some r1,
                      created_at := t1 },
                    { id := u2, name := n2, invite_code := c2, room_id := some r1,
                      created_at := t2 },
                    { id := u3, name := n3, invite_code := c3, room_id := some r3,
                      created_at := t3 }],
          tasks := [], timer_sessions := [] } := by
  have s1 : login Db.empty (some c1) (some n1) u1 r1 t1
      = ({ rooms := [{ id := r1, created_at := t1 }],
           users := [{ id := u1, name := n1, invite_code := c1, room_id := some r1,
                       created_at := t1 }],
           tasks := [], timer_sessions := [] },
         .ok { id := u1, name := n1, invite_code := c1, room_id := some r1,
               created_at := t1 }) := by
    rw [login_creates Db.empty c1 n1 u1 r1 t1 hc1 hn1 rfl (by simp [Db.empty])
      (by simp [Db.empty]) rfl]
    rfl
  have s2 : login
        { rooms := [{ id := r1, created_at := t1 }],
          users := [{ id := u1, name := n1, invite_code := c1, room_id := some r1,
                      created_at := t1 }],
          tasks := [], timer_sessions := [] } (some c2) (some n2) u2 r2 t2
      = ({ rooms := [{ id := r1, created_at := t1 }],
           users := [{ id := u1, name := n1, invite_code := c1, room_id := some r1,
                       created_at := t1 },
                     { id := u2, name := n2, invite_code := c2, room_id := some r1,
                       created_at := t2 }],
           tasks := [], timer_sessions := [] },
         .ok { id := u2, name := n2, invite_code := c2, room_id := some r1,
               created_at := t2 }) := by
    rw [login_joins _ c2 n2 u2 r2 t2 r1 [] hc2 hn2
      (by simp [getUserByInviteCode, hc12]) (by simp [hu12])
      (by simp [roomsWithOneUser, membersOf])]
    rfl
  have s3 : login
        { rooms := [{ id := r1, created_at := t1 }],
          users := [{ id := u1, name := n1, invite_code := c1, room_id := some r1,
                      created_at := t1 },
                    { id := u2, name := n2, invite_code := c2, room_id := some r1,
                      created_at := t2 }],
          tasks := [], timer_sessions := [] } (some c3) (some n3) u3 r3 t3
      = ({ rooms := [{ id := r1, created_at := t1 }, { id := r3, created_at := t3 }],
           users := [{ id := u1, name := n1, invite_code := c1, room_id := some r1,
                       created_at := t1 },
                     { id := u2, name := n2, invite_code := c2, room_id := some r1,
                       created_at := t2 },
                     { id := u3, name := n3, invite_code := c3, room_id := some r3,
                       created_at := t3 }],
           tasks := [], timer_sessions := [] },
         .ok { id := u3, name := n3, invite_code := c3, room_id := some r3,
               created_at := t3 }) := by
    rw [login_creates _ c3 n3 u3 r3 t3 hc3 hn3
      (by simp [getUserByInviteCode, hc13, hc23]) (by simp [hu13, hu23]) (by simp [hr13])
      (by simp [roomsWithOneUser, membersOf])]
    rfl
  simp only [runLogins, List.foldl_cons, List.foldl_nil, applyLogin, s1, s2, s3]

/-- C13. Login with an invite code that no user has (code and name not empty,
the drawn ids new): if some room has exactly one member, the new user is put in
such a room and `rooms` is unchanged; otherwise exactly one room is created
and the new user is put in it.  Consequently three logins with distinct new
invite codes in the empty store put the first two users in one room and the
third in a second room, created by the third login. -/
theorem fresh_login_joins_or_creates (db : Db) (code name : String) (newUserId : UserId)
    (newRoomId : RoomId) (ts : Nat)
    (hcode : code ≠ "") (hname : name ≠ "") (hnew : getUserByInviteCode db code = none)
    (hU : ∀ u ∈ db.users, u.id ≠ newUserId) (hR : ∀ r ∈ db.rooms, r.id ≠ newRoomId) :
    ((∃ r ∈ db.rooms, (membersOf db r.id).length = 1) →
      ∃ roomId, (∃ r ∈ db.rooms, r.id = roomId) ∧ (membersOf db roomId).length = 1 ∧
        login db (some code) (some name) newUserId newRoomId ts
          = ({ db with users := db.users ++
                [{ id := newUserId, name := name, invite_code := code,
                   room_id := some roomId, created_at := ts }] },
             .ok { id := newUserId, name := name, invite_code := code,
                   room_id := some roomId, created_at := ts })) ∧
    ((¬ ∃ r ∈ db.rooms, (membersOf db r.id).length = 1) →
      login db (some code) (some name) newUserId newRoomId ts
        = ({ db with
              rooms := db.rooms ++ [{ id := newRoomId, created_at := ts }],
              users := db.users ++
                [{ id := newUserId, name := name, invite_code := code,
                   room_id := some newRoomId, created_at := ts }] },
           .ok { id := newUserId, name := name, invite_code := code,
                 room_id := some newRoomId, created_at := ts })) ∧
    (∀ (c1 c2 c3 n1 n2 n3 : String) (u1 u2 u3 : UserId) (r1 r2 r3 : RoomId) (t1 t2 t3 : Nat),
      c1 ≠ "" → c2 ≠ "" → c3 ≠ "" → n1 ≠ "" → n2 ≠ "" → n3 ≠ "" →
      c1 ≠ c2 → c1 ≠ c3 → c2 ≠ c3 → u1 ≠ u2 → u1 ≠ u3 → u2 ≠ u3 → r1 ≠ r3 →
      runLogins Db.empty
        [{ inviteCode := some c1, name := some n1, newUserId := u1, newRoomId := r1, ts := t1 },
         { inviteCode := some c2, name := some n2, newUserId := u2, newRoomId := r2, ts := t2 },
         { inviteCode := some c3, name := some n3, newUserId := u3, newRoomId := r3, ts := t3 }]
      = { rooms := [{ id := r1, created_at := t1 }, { id := r3, created_at := t3 }],
          users := [{ id := u1, name := n1, invite_code := c1, room_id := some r1,
                      created_at := t1 },
                    { id := u2, name := n2, invite_code := c2, room_id := some r1,
                      created_at := t2 },
                    { id := u3, name := n3, invite_code := c3, room_id := some r3,
                      created_at := t3 }],
          tasks := [], timer_sessions := [] }) := by
  refine ⟨?_, ?_, ?_⟩
  · intro hex
    cases hone : roomsWithOneUser db with
    | nil => exact absurd hex ((roomsWithOneUser_eq_nil_iff db).1 hone)
    | cons roomId rest =>
      have hmem : roomId ∈ roomsWithOneUser db := by rw [hone]; exact List.mem_cons_self _ _
      obtain ⟨h1, h2⟩ := mem_roomsWithOneUser hmem
      exact ⟨roomId, h1, h2,
        login_joins db code name newUserId newRoomId ts roomId rest hcode hname hnew hU hone⟩
  · intro hno
    exact login_creates db code name newUserId newRoomId ts hcode hname hnew hU hR
      ((roomsWithOneUser_eq_nil_iff db).2 hno)
  · intro c1 c2 c3 n1 n2 n3 u1 u2 u3 r1 r2 r3 t1 t2 t3 hc1 hc2 hc3 hn1 hn2 hn3 hc12 hc13 hc23
      hu12 hu13 hu23 hr13
    exact three_logins c1 c2 c3 n1 n2 n3 u1 u2 u3 r1 r2 r3 t1 t2 t3 hc1 hc2 hc3 hn1 hn2 hn3
      hc12 hc13 hc23 hu12 hu13 hu23 hr13

/-- Witness of C13: in the store left by the login of "a" (one room with one
member) the login of "b" joins room 1; and the three sample logins end with
users 1 and 2 in room 1 and user 3 in room 3. -/
theorem fresh_login_joins_or_creates_witness :
    (∃ r ∈ (runLogins Db.empty (threeLogins.take 1)).rooms,
        (membersOf (runLogins Db.empty (threeLogins.take 1)) r.id).length = 1) ∧
    (∃ roomId, (∃ r ∈ (runLogins Db.empty (threeLogins.take 1)).rooms, r.id = roomId) ∧
        (membersOf (runLogins Db.empty (threeLogins.take 1)) roomId).length = 1 ∧
        login (runLogins Db.empty (threeLogins.take 1)) (some "b") (some "Bob") 2 2 1
          = ({ runLogins Db.empty (threeLogins.take 1) with
                users := (runLogins Db.empty (threeLogins.take 1)).users ++
                  [{ id := 2, name := "Bob", invite_code := "b", room_id := some roomId,
                     created_at := 1 }] },
             .ok { id := 2, name := "Bob", invite_code := "b", room_id := some roomId,
                   created_at := 1 })) ∧
    (runLogins Db.empty threeLogins).users.map (fun u => (u.id, u.room_id))
      = [(1, some 1), (2, some 1), (3, some 3)] ∧
    (runLogins Db.empty threeLogins).rooms.map (fun r => r.id) = [1, 3] :=
  ⟨by decide,
   (fresh_login_joins_or_creates (runLogins Db.empty (threeLogins.take 1)) "b" "Bob" 2 2 1
      (by decide) (by decide) (by decide) (by decide) (by decide)).1 (by decide),
   by decide, by decide⟩

/-- C14. Login with an invite code that belongs to a user (any name that is
not empty): the answer is that user's row as stored (id, name, invite code and
room unchanged) and the store is left exactly as it was. -/
theorem known_login_returns_user (db : Db) (code name : String) (newUserId : UserId)
    (newRoomId : RoomId) (ts : Nat) (user : User)
    (hcode : code ≠ "") (hname : name ≠ "")
    (hknown : getUserByInviteCode db code = some user) :
    login db (some code) (some name) newUserId newRoomId ts = (db, .ok user) ∧
    user ∈ db.users ∧ user.invite_code = code := by
  refine ⟨?_, ?_, ?_⟩
  · simp [login, hcode, hname, hknown]
  · exact List.mem_of_find?_eq_some hknown
  · have := List.find?_some hknown
    simpa using this

/-- Witness of C14: user "a" of the sample store logs in under another name. -/
theorem known_login_returns_user_witness :
    getUserByInviteCode (sampleDb .stopped) "a"
      = some { id := 1, name := "Ann", invite_code := "a", room_id := some 1, created_at := 0 } ∧
    login (sampleDb .stopped) (some "a") (some "Zed") 9 9 9
      = (sampleDb .stopped,
         .ok { id := 1, name := "Ann", invite_code := "a", room_id := some 1,
               created_at := 0 }) :=
  ⟨by decide,
   (known_login_returns_user (sampleDb .stopped) "a" "Zed" 9 9 9
      { id := 1, name := "Ann", invite_code := "a", room_id := some 1, created_at := 0 }
      (by decide) (by decide) (by decide)).1⟩

/-! ## Rooms hold one or two users -/

/-- What a login leaves behind when the drawn user id is new: the store as it
was, or the store with the user appended to a room that had one member, or the
store with a new room and the user appended as its member. -/
theorem applyLogin_cases (db : Db) (q : LoginReq) (hU : ∀ u ∈ db.users, u.id ≠ q.newUserId) :
    applyLogin db q = db ∨
    (∃ code name roomId, roomId ∈ roomsWithOneUser db ∧
      applyLogin db q = { db with users := db.users ++
        [{ id := q.newUserId, name := name, invite_code := code, room_id := some roomId,
           created_at := q.ts }] }) ∨
    (∃ code name, (∀ r ∈ db.rooms, r.id ≠ q.newRoomId) ∧
      applyLogin db q = { db with
        rooms := db.rooms ++ [{ id := q.newRoomId, created_at := q.ts }],
        users := db.users ++
          [{ id := q.newUserId, name := name, invite_code := code,
             room_id := some q.newRoomId, created_at := q.ts }] }) := by
  unfold applyLogin
  cases hi : q.inviteCode with
  | none => left; simp [login]
  | some code =>
    cases hn : q.name with
    | none => left; simp [login]
    | some name =>
      by_cases hempty : code = "" ∨ name = ""
      · left; simp [login, hempty]
      · have hcode : code ≠ "" := fun h => hempty (Or.inl h)
        have hname : name ≠ "" := fun h => hempty (Or.inr h)
        cases hknown : getUserByInviteCode db code with
        | some user => left; simp [login, hempty, hknown]
        | none =>
          cases hone : roomsWithOneUser db with
          | cons roomId rest =>
            right; left
            refine ⟨code, name, roomId, List.mem_cons_self _ _, ?_⟩
            rw [login_joins db code name q.newUserId q.newRoomId q.ts roomId rest hcode hname
              hknown hU hone]
          | nil =>
            by_cases hR : ∀ r ∈ db.rooms, r.id ≠ q.newRoomId
            · right; right
              refine ⟨code, name, hR, ?_⟩
              rw [login_creates db code name q.newUserId q.newRoomId q.ts hcode hname hknown
                hU hR hone]
            · left
              have hany : (db.rooms.any fun x => decide (x.id = q.newRoomId)) = true := by
                rw [List.any_eq_true]
                push_neg at hR
                obtain ⟨r, hr, hrid⟩ := hR
                exact ⟨r, hr, by simpa using hrid⟩
              simp [login, hempty, hknown, hone, insertRoom, hany]

theorem membersOf_append_user (db : Db) (u : User) (roomId : RoomId) :
    membersOf { db with users := db.users ++ [u] } roomId
      = membersOf db roomId ++ (if u.room_id = some roomId then [u] else []) := by
  unfold membersOf
  simp only [List.filter_append, List.filter_cons, List.filter_nil]
  by_cases h : u.room_id = some roomId <;> simp [h]

theorem nodup_map_append_single {α : Type} (l : List α) (a : α) (f : α → Nat)
    (h : (l.map f).Nodup) (hnew : ∀ x ∈ l, f x ≠ f a) : ((l ++ [a]).map f).Nodup := by
  rw [List.map_append, List.nodup_append]
  refine ⟨h, by simp, ?_⟩
  intro y hy hy'
  simp only [List.map_cons, List.map_nil, List.mem_singleton] at hy'
  subst hy'
  rw [List.mem_map] at hy
  obtain ⟨x, hx, hfx⟩ := hy
  exact hnew x hx hfx

theorem pairingInvariant_join (db : Db) (u : User) (roomId : RoomId)
    (hinv : pairingInvariant db) (hroom : roomId ∈ roomsWithOneUser db)
    (hu : u.room_id = some roomId) (hU : ∀ x ∈ db.users, x.id ≠ u.id) :
    pairingInvariant { db with users := db.users ++ [u] } := by
  obtain ⟨h1, h2, h3, h4⟩ := hinv
  obtain ⟨⟨r0, hr0, hr0id⟩, hlen⟩ := mem_roomsWithOneUser hroom
  refine ⟨h1, nodup_map_append_single db.users u (fun x => x.id) h2 hU, ?_, ?_⟩
  · intro x hx
    rcases List.mem_append.1 hx with hx | hx
    · exact h3 x hx
    · rw [List.mem_singleton] at hx
      subst hx
      exact ⟨r0, hr0, by rw [hu, hr0id]⟩
  · intro r hr
    rw [membersOf_append_user, List.length_append]
    by_cases h : u.room_id = some r.id
    · have hrid : r.id = roomId := by
        rw [hu] at h
        exact (Option.some.inj h).symm
      rw [hrid] at h ⊢
      simp only [h, if_true, List.length_singleton]
      omega
    · simp only [h, if_false, List.length_nil, Nat.add_zero]
      exact h4 r hr

theorem pairingInvariant_create (db : Db) (u : User) (room : Room)
    (hinv : pairingInvariant db) (hu : u.room_id = some room.id)
    (hU : ∀ x ∈ db.users, x.id ≠ u.id) (hR : ∀ r ∈ db.rooms, r.id ≠ room.id) :
    pairingInvariant { db with rooms := db.rooms ++ [room], users := db.users ++ [u] } := by
  obtain ⟨h1, h2, h3, h4⟩ := hinv
  have hnone : membersOf db room.id = [] := by
    unfold membersOf
    rw [List.filter_eq_nil_iff]
    intro x hx
    obtain ⟨r, hr, hxr⟩ := h3 x hx
    simp only [decide_eq_true_eq]
    intro hx'
    rw [hxr] at hx'
    exact hR r hr (Option.some.inj hx')
  have hmem : ∀ roomId,
      membersOf { db with rooms := db.rooms ++ [room], users := db.users ++ [u] } roomId
        = membersOf db roomId ++ (if u.room_id = some roomId then [u] else []) :=
    fun roomId => membersOf_append_user _ u roomId
  refine ⟨nodup_map_append_single db.rooms room (fun x => x.id) h1 hR,
    nodup_map_append_single db.users u (fun x => x.id) h2 hU, ?_, ?_⟩
  · intro x hx
    rcases List.mem_append.1 hx with hx | hx
    · obtain ⟨r, hr, hxr⟩ := h3 x hx
      exact ⟨r, List.mem_append_left _ hr, hxr⟩
    · rw [List.mem_singleton] at hx
      subst hx
      exact ⟨room, List.mem_append_right _ (List.mem_singleton_self _), hu⟩
  · intro r hr
    rw [hmem, List.length_append]
    rcases List.mem_append.1 hr with hr | hr
    · have hne : ¬ u.room_id = some r.id := by
        rw [hu]
        intro h
        exact hR r hr (Option.some.inj h).symm
      simp only [hne, if_false, List.length_nil, Nat.add_zero]
      exact h4 r hr
    · rw [List.mem_singleton] at hr
      subst hr
      simp [hu, hnone]

theorem pairingInvariant_applyLogin (db : Db) (q : LoginReq) (hinv : pairingInvariant db)
    (hU : ∀ u ∈ db.users, u.id ≠ q.newUserId) : pairingInvariant (applyLogin db q) := by
  rcases applyLogin_cases db q hU with h | ⟨code, name, roomId, hroom, h⟩ | ⟨code, name, hR, h⟩
  · rw [h]; exact hinv
  · rw [h]
    exact pairingInvariant_join db _ roomId hinv hroom rfl hU
  · rw [h]
    exact pairingInvariant_create db _ { id := q.newRoomId, created_at := q.ts } hinv rfl hU hR

theorem pairingInvariant_runLogins (qs : List LoginReq) :
    ∀ db, pairingInvariant db → freshUserIds db qs = true → pairingInvariant (runLogins db qs) := by
  induction qs with
  | nil => intro db h _; exact h
  | cons q qs ih =>
    intro db hinv hfresh
    simp only [freshUserIds, Bool.and_eq_true, List.all_eq_true, decide_eq_true_eq] at hfresh
    exact ih (applyLogin db q) (pairingInvariant_applyLogin db q hinv hfresh.1) hfresh.2

theorem partners_le_one (db : Db) (hinv : pairingInvariant db) (u : User) (hu : u ∈ db.users) :
    (partnersOf db u).length ≤ 1 := by
  obtain ⟨_, _, h3, h4⟩ := hinv
  obtain ⟨r, hr, hur⟩ := h3 u hu
  have hpart : partnersOf db u = (membersOf db r.id).filter (fun p => p.id ≠ u.id) := by
    unfold partnersOf membersOf
    rw [List.filter_filter]
    apply List.filter_congr
    intro p _
    rw [hur]
    by_cases h1 : p.room_id = some r.id <;> by_cases h2 : p.id = u.id <;> simp [h1, h2]
  have hmem : u ∈ membersOf db r.id := by
    unfold membersOf
    rw [List.mem_filter]
    exact ⟨hu, by simpa using hur⟩
  have hlt : ((membersOf db r.id).filter (fun p => decide (p.id ≠ u.id))).length
      < (membersOf db r.id).length :=
    List.length_filter_lt_length_iff_exists.2 ⟨u, hmem, by simp⟩
  rw [hpart]
  have := (h4 r hr).2
  omega

/-- C15. In every store reached from the empty store by logins handled one
after the other (each drawn user id being new when drawn), every room has at
least one and at most 2 users, and every user has at most one partner. -/
theorem rooms_hold_one_or_two (qs : List LoginReq) (hfresh : freshUserIds Db.empty qs = true) :
    (∀ r ∈ (runLogins Db.empty qs).rooms,
        1 ≤ (membersOf (runLogins Db.empty qs) r.id).length ∧
        (membersOf (runLogins Db.empty qs) r.id).length ≤ 2) ∧
    (∀ u ∈ (runLogins Db.empty qs).users, (partnersOf (runLogins Db.empty qs) u).length ≤ 1) := by
  have hinv : pairingInvariant (runLogins Db.empty qs) :=
    pairingInvariant_runLogins qs Db.empty
      ⟨by simp [Db.empty], by simp [Db.empty], by simp [Db.empty], by simp [Db.empty]⟩ hfresh
  exact ⟨hinv.2.2.2, fun u hu => partners_le_one _ hinv u hu⟩

/-- Witness of C15: the three sample logins. -/
theorem rooms_hold_one_or_two_witness :
    freshUserIds Db.empty threeLogins = true ∧
    (∀ r ∈ (runLogins Db.empty threeLogins).rooms,
        1 ≤ (membersOf (runLogins Db.empty threeLogins) r.id).length ∧
        (membersOf (runLogins Db.empty threeLogins) r.id).length ≤ 2) ∧
    (∀ u ∈ (runLogins Db.empty threeLogins).users,
        (partnersOf (runLogins Db.empty threeLogins) u).length ≤ 1) :=
  ⟨by decide, rooms_hold_one_or_two threeLogins (by decide)⟩

/-! ## Deleting the active task -/

theorem activeTasksOf_deleteById (db : Db) (uid : UserId) (taskId : TaskId) :
    activeTasksOf (deleteById db taskId) uid
      = (activeTasksOf db uid).filter (fun t => t.id ≠ taskId) := by
  unfold activeTasksOf deleteById
  simp only [List.filter_filter]
  apply List.filter_congr
  intro t _
  exact Bool.and_comm _ _

theorem getOwnedTask_of_mem {db : Db} {t : Task} (ht : t ∈ db.tasks) :
    (getOwnedTask db t.id t.user_id).isSome = true := by
  unfold getOwnedTask
  rw [List.find?_isSome]
  exact ⟨t, ht, by simp⟩

/-- C16. For a user `uid` (row `user`) whose only active task is `t`: deleting
`t` succeeds and leaves `uid` without an active task; the broadcast the
deletion triggers carries the state of `uid` with `activeTask = null`, and it
is sent exactly to the open sockets registered under the user ids of the room
set of `uid`, the partner's among them. -/
theorem delete_active_task_broadcasts_null (db : Db) (hub : Hub) (readyState : WsId → Nat)
    (uid : UserId) (user : User) (t : Task)
    (huser : getUser db uid = some user) (hactive : activeTasksOf db uid = [t]) :
    succeeded (taskDelete db uid t.id) ∧
    activeTasksOf (taskDelete db uid t.id).1 uid = [] ∧
    getActiveTask (taskDelete db uid t.id).1 uid = none ∧
    (∀ dl, dl ∈ notifyTaskUpdate (taskDelete db uid t.id).1 hub readyState uid ↔
        dl.target ∈ roomSet hub user.room_id ∧
        hub.connections.lookup dl.target = some dl.ws ∧ readyState dl.ws = 1 ∧
        dl.message = .userState uid user.id user.name none (currentSession db uid)) ∧
    (∀ partner ws, partner ∈ roomSet hub user.room_id →
        hub.connections.lookup partner = some ws → readyState ws = 1 →
        { target := partner, ws := ws,
          message := .userState uid user.id user.name none (currentSession db uid) }
          ∈ notifyTaskUpdate (taskDelete db uid t.id).1 hub readyState uid) := by
  have htmem : t ∈ activeTasksOf db uid := by rw [hactive]; exact List.mem_singleton_self _
  unfold activeTasksOf at htmem
  rw [List.mem_filter] at htmem
  obtain ⟨ht, hprop⟩ := htmem
  simp only [decide_eq_true_eq] at hprop
  obtain ⟨o, ho⟩ := Option.isSome_iff_exists.1 (getOwnedTask_of_mem ht)
  rw [hprop.1] at ho
  have hdel : taskDelete db uid t.id = (deleteById db t.id, .ok ()) := by
    simp [taskDelete, ho]
  have hnoactive : activeTasksOf (deleteById db t.id) uid = [] := by
    rw [activeTasksOf_deleteById, hactive]
    simp
  have hnone : getActiveTask (deleteById db t.id) uid = none := by
    rw [getActiveTask_eq_head?, hnoactive]; rfl
  have key : ∀ dl, dl ∈ notifyTaskUpdate (deleteById db t.id) hub readyState uid ↔
      dl.target ∈ roomSet hub user.room_id ∧
      hub.connections.lookup dl.target = some dl.ws ∧ readyState dl.ws = 1 ∧
      dl.message = .userState uid user.id user.name none (currentSession db uid) := by
    intro dl
    have hu' : getUser (deleteById db t.id) uid = some user := huser
    have hc' : currentSession (deleteById db t.id) uid = currentSession db uid := rfl
    simp only [notifyTaskUpdate, sendUserState, hu', userStateMessage, hnone, hc']
    exact mem_broadcastToRoom hub readyState user.room_id _ dl
  rw [hdel]
  refine ⟨⟨(), rfl⟩, hnoactive, hnone, key, ?_⟩
  intro partner ws h1 h2 h3
  exact (key _).2 ⟨h1, h2, h3, rfl⟩

/-- Witness of C16: user 1 of the sample store deletes the active task 11; the
state with `activeTask = null` goes to sockets 100 (user 1) and 200 (the
partner, user 2). -/
theorem delete_active_task_broadcasts_null_witness :
    getUser (sampleDb .running) 1
      = some { id := 1, name := "Ann", invite_code := "a", room_id := some 1, created_at := 0 } ∧
    activeTasksOf (sampleDb .running) 1
      = [{ id := 11, user_id := 1, title := "write", is_active := 1, created_at := 0 }] ∧
    getActiveTask (taskDelete (sampleDb .running) 1 11).1 1 = none ∧
    notifyTaskUpdate (taskDelete (sampleDb .running) 1 11).1 sampleHub sampleReadyState 1
      = [{ target := 1, ws := 100,
           message := .userState 1 1 "Ann" none (some (sampleSession .running)) },
         { target := 2, ws := 200,
           message := .userState 1 1 "Ann" none (some (sampleSession .running)) }] :=
  ⟨by decide, by decide,
   (delete_active_task_broadcasts_null (sampleDb .running) sampleHub sampleReadyState 1
      { id := 1, name := "Ann", invite_code := "a", room_id := some 1, created_at := 0 }
      { id := 11, user_id := 1, title := "write", is_active := 1, created_at := 0 }
      (by decide) (by decide)).2.2.1,
   by decide⟩

/-! ## One timer session per user -/

theorem sessionsOf_eq_nil_iff (db : Db) (uid : UserId) :
    sessionsOf db uid = [] ↔ currentSession db uid = none := by
  unfold sessionsOf currentSession
  rw [latest_eq_none_iff]

theorem updateSession_ids (db : Db) (sid : SessionId) (f : TimerSession → TimerSession)
    (hid : ∀ r, (f r).id = r.id) :
    (updateSession db sid f).timer_sessions.map (fun r => r.id)
      = db.timer_sessions.map (fun r => r.id) := by
  unfold updateSession
  simp only [List.map_map]
  apply List.map_congr_left
  intro r _
  simp only [Function.comp]
  split
  · exact hid r
  · rfl

theorem sessionsOf_updateSession_length (db : Db) (sid : SessionId)
    (f : TimerSession → TimerSession) (hu : ∀ r, (f r).user_id = r.user_id) (uid : UserId) :
    (sessionsOf (updateSession db sid f) uid).length = (sessionsOf db uid).length := by
  unfold sessionsOf updateSession
  simp only
  rw [List.filter_map, List.length_map]
  congr 1
  apply List.filter_congr
  intro r _
  simp only [Function.comp]
  split <;> simp [hu]

theorem sessionsOf_insertSession {db db' : Db} {row : TimerSession}
    (h : insertSession db row = .ok db') (uid : UserId) :
    sessionsOf db' uid = sessionsOf db uid ++ (if row.user_id = uid then [row] else []) := by
  unfold insertSession at h
  split at h
  · cases h
  · cases h
    unfold sessionsOf
    simp only [List.filter_append, List.filter_cons, List.filter_nil]
    by_cases hr : row.user_id = uid <;> simp [hr]

/-- One timer request keeps "at most one row per user": a row is appended only
for a caller without rows. -/
theorem applyTimerOp_sessionsOf (db : Db) (op : TimerOp) (uid : UserId)
    (h : (sessionsOf db uid).length ≤ 1) : (sessionsOf (applyTimerOp db op) uid).length ≤ 1 := by
  cases op with
  | get caller newId ts =>
    simp only [applyTimerOp, timerGet]
    cases hcur : currentSession db caller with
    | some s => exact h
    | none =>
      simp only
      split
      · exact h
      · rename_i db' hins
        rw [sessionsOf_insertSession hins uid]
        by_cases hc : caller = uid
        · subst hc
          rw [(sessionsOf_eq_nil_iff db caller).2 hcur]
          simp
        · simpa [hc] using h
  | start caller body now newId ts =>
    simp only [applyTimerOp]
    cases hp : body.phase.withDefault "work" with
    | none =>
      rw [timerStart_null db caller body now newId ts (Or.inl hp)]
      exact h
    | some p =>
      cases hd : body.durationSeconds.withDefault 1500 with
      | none =>
        rw [timerStart_null db caller body now newId ts (Or.inr hd)]
        exact h
      | some d =>
        cases hcur : currentSession db caller with
        | some s =>
          rw [timerStart_update db caller body now newId ts p d s hp hd hcur]
          simp only
          rw [sessionsOf_updateSession_length]
          · exact h
          · intro r; rfl
        | none =>
          rw [timerStart_insert db caller body now newId ts p d hp hd hcur]
          split
          · exact h
          · rename_i db' hins
            simp only
            rw [sessionsOf_insertSession hins uid]
            by_cases hc : caller = uid
            · subst hc
              rw [(sessionsOf_eq_nil_iff db caller).2 hcur]
              simp
            · simpa [hc] using h
  | pause caller =>
    simp only [applyTimerOp, timerPause]
    split
    · exact h
    · split
      · exact h
      · simp only
        rw [sessionsOf_updateSession_length]
        · exact h
        · intro r; rfl
  | resume caller t1 t2 =>
    simp only [applyTimerOp, timerResume]
    split
    · exact h
    · split
      · exact h
      · simp only
        rw [sessionsOf_updateSession_length]
        · exact h
        · intro r; rfl
  | stop caller =>
    simp only [applyTimerOp, timerStop]
    split
    · exact h
    · simp only
      rw [sessionsOf_updateSession_length]
      · exact h
      · intro r; rfl

theorem runTimerOps_sessionsOf (ops : List TimerOp) (uid : UserId) :
    ∀ db, (sessionsOf db uid).length ≤ 1 → (sessionsOf (runTimerOps db ops) uid).length ≤ 1 := by
  induction ops with
  | nil => intro db h; exact h
  | cons op ops ih =>
    intro db h
    exact ih (applyTimerOp db op) (applyTimerOp_sessionsOf db op uid h)

/-- The ids of the rows are unchanged by a request that does not insert. -/
theorem applyTimerOp_ids (db : Db) (op : TimerOp)
    (h : (∃ s, currentSession db op.caller = some s) ∨
      (∀ uid newId ts, op ≠ .get uid newId ts) ∧
      (∀ uid body now newId ts, op ≠ .start uid body now newId ts)) :
    (applyTimerOp db op).timer_sessions.map (fun r => r.id)
      = db.timer_sessions.map (fun r => r.id) := by
  cases op with
  | get caller newId ts =>
    rcases h with ⟨s, hs⟩ | ⟨h1, _⟩
    · simp only [TimerOp.caller] at hs
      simp [applyTimerOp, timerGet, hs]
    · exact absurd rfl (h1 caller newId ts)
  | start caller body now newId ts =>
    rcases h with ⟨s, hs⟩ | ⟨_, h2⟩
    · simp only [TimerOp.caller] at hs
      simp only [applyTimerOp]
      cases hp : body.phase.withDefault "work" with
      | none => rw [timerStart_null db caller body now newId ts (Or.inl hp)]
      | some p =>
        cases hd : body.durationSeconds.withDefault 1500 with
        | none => rw [timerStart_null db caller body now newId ts (Or.inr hd)]
        | some d =>
          rw [timerStart_update db caller body now newId ts p d s hp hd hs]
          exact updateSession_ids _ _ _ (fun r => rfl)
    · exact absurd rfl (h2 caller body now newId ts)
  | pause caller =>
    simp only [applyTimerOp, timerPause]
    split
    · rfl
    · split
      · rfl
      · exact updateSession_ids _ _ _ (fun r => rfl)
  | resume caller t1 t2 =>
    simp only [applyTimerOp, timerResume]
    split
    · rfl
    · split
      · rfl
      · exact updateSession_ids _ _ _ (fun r => rfl)
  | stop caller =>
    simp only [applyTimerOp, timerStop]
    split
    · rfl
    · exact updateSession_ids _ _ _ (fun r => rfl)

theorem applyTimerOp_current (db : Db) (op : TimerOp) (s : TimerSession)
    (hcur : currentSession db op.caller = some s) :
    ∃ s', currentSession (applyTimerOp db op) op.caller = some s' ∧ s'.id = s.id ∧
      s'.user_id = s.user_id ∧ s'.created_at = s.created_at := by
  have upd : ∀ (f : TimerSession → TimerSession), (∀ r, (f r).id = r.id) →
      (∀ r, (f r).user_id = r.user_id) → (∀ r, (f r).created_at = r.created_at) →
      ∃ s', currentSession (updateSession db s.id f) op.caller = some s' ∧ s'.id = s.id ∧
        s'.user_id = s.user_id ∧ s'.created_at = s.created_at := by
    intro f h1 h2 h3
    rw [currentSession_updateSession db s.id f h2 h3, hcur]
    exact ⟨f s, by simp, h1 s, h2 s, h3 s⟩
  cases op with
  | get caller newId ts =>
    simp only [TimerOp.caller] at hcur
    exact ⟨s, by simp [applyTimerOp, timerGet, hcur, TimerOp.caller], rfl, rfl, rfl⟩
  | start caller body now newId ts =>
    simp only [TimerOp.caller] at hcur upd ⊢
    simp only [applyTimerOp]
    cases hp : body.phase.withDefault "work" with
    | none =>
      rw [timerStart_null db caller body now newId ts (Or.inl hp)]
      exact ⟨s, hcur, rfl, rfl, rfl⟩
    | some p =>
      cases hd : body.durationSeconds.withDefault 1500 with
      | none =>
        rw [timerStart_null db caller body now newId ts (Or.inr hd)]
        exact ⟨s, hcur, rfl, rfl, rfl⟩
      | some d =>
        rw [timerStart_update db caller body now newId ts p d s hp hd hcur]
        exact upd _ (fun r => rfl) (fun r => rfl) (fun r => rfl)
  | pause caller =>
    simp only [TimerOp.caller] at hcur upd ⊢
    simp only [applyTimerOp, timerPause, hcur]
    split
    · exact ⟨s, hcur, rfl, rfl, rfl⟩
    · exact upd _ (fun r => rfl) (fun r => rfl) (fun r => rfl)
  | resume caller t1 t2 =>
    simp only [TimerOp.caller] at hcur upd ⊢
    simp only [applyTimerOp, timerResume, hcur]
    split
    · exact ⟨s, hcur, rfl, rfl, rfl⟩
    · exact upd _ (fun r => rfl) (fun r => rfl) (fun r => rfl)
  | stop caller =>
    simp only [TimerOp.caller] at hcur upd ⊢
    simp only [applyTimerOp, timerStop, hcur]
    exact upd _ (fun r => rfl) (fun r => rfl) (fun r => rfl)

/-- C17. In every store reached from a store without timer sessions by
get-timer, start, pause, resume and stop requests handled one after the other,
each user has at most one row in `timer_sessions`.  A request inserts no row
(the ids of the rows are as before) when the caller already has a session, and
`pause`, `resume` and `stop` insert no row in any case; the caller's current
session then keeps its id, owner and creation time. -/
theorem one_session_per_user (db0 : Db) (ops : List TimerOp) (h0 : db0.timer_sessions = []) :
    (∀ uid, (sessionsOf (runTimerOps db0 ops) uid).length ≤ 1) ∧
    (∀ db op, ((∃ s, currentSession db op.caller = some s) ∨
        (∀ uid newId ts, op ≠ .get uid newId ts) ∧
        (∀ uid body now newId ts, op ≠ .start uid body now newId ts)) →
      (applyTimerOp db op).timer_sessions.map (fun r => r.id)
        = db.timer_sessions.map (fun r => r.id)) ∧
    (∀ db op s, currentSession db op.caller = some s →
      ∃ s', currentSession (applyTimerOp db op) op.caller = some s' ∧ s'.id = s.id ∧
        s'.user_id = s.user_id ∧ s'.created_at = s.created_at) := by
  refine ⟨?_, applyTimerOp_ids, applyTimerOp_current⟩
  intro uid
  apply runTimerOps_sessionsOf ops uid db0
  simp [sessionsOf, h0]

/-- Witness of C17: user 1 reads the timer, starts, pauses, resumes, starts
again and stops; user 2 reads the timer: one row each. -/
theorem one_session_per_user_witness :
    Db.empty.timer_sessions = [] ∧
    (∀ uid, (sessionsOf (runTimerOps Db.empty
        [.get 1 7 0, .start 1 { phase := .absent, durationSeconds := .absent } 1700000000000 8 1,
         .pause 1, .resume 1 1700000010000 1700000010000,
         .start 1 { phase := .value "break", durationSeconds := .value 300 } 1700000020000 9 2,
         .stop 1, .get 2 10 3, .get 2 11 4]) uid).length ≤ 1) ∧
    (runTimerOps Db.empty
        [.get 1 7 0, .start 1 { phase := .absent, durationSeconds := .absent } 1700000000000 8 1,
         .pause 1, .resume 1 1700000010000 1700000010000,
         .start 1 { phase := .value "break", durationSeconds := .value 300 } 1700000020000 9 2,
         .stop 1, .get 2 10 3, .get 2 11 4]).timer_sessions.map (fun r => (r.id, r.user_id))
      = [(7, 1), (10, 2)] :=
  ⟨rfl, (one_session_per_user Db.empty _ rfl).1, by decide⟩

/-! ## Ownership of tasks -/

theorem getOwnedTask_eq_none_iff (db : Db) (taskId : TaskId) (uid : UserId) :
    getOwnedTask db taskId uid = none ↔ ¬ ∃ t ∈ db.tasks, t.id = taskId ∧ t.user_id = uid := by
  unfold getOwnedTask
  rw [List.find?_eq_none]
  simp

theorem taskDelete_other_users {db : Db} {uid : UserId} {taskId : TaskId} {o : Task}
    (hkeys : taskKeysUnique db) (hown : getOwnedTask db taskId uid = some o)
    {other : UserId} (hne : other ≠ uid) :
    tasksOf (taskDelete db uid taskId).1 other = tasksOf db other := by
  obtain ⟨hmem, hid, huser⟩ := getOwnedTask_some hown
  simp only [taskDelete, hown, deleteById, tasksOf, List.filter_filter]
  apply List.filter_congr
  intro t ht
  by_cases hu : t.user_id = other
  · have h1 : t.id ≠ taskId := by
      intro h1
      have : t = o := task_eq_of_id_eq hkeys ht hmem (h1.trans hid.symm)
      exact hne (by rw [← hu, this, huser])
    simp [hu, h1]
  · simp [hu]

/-- C18. `activate` and `delete` of a task id requested by `uid` fail exactly
when no row of `tasks` has that id and owner `uid` (the id is absent, or the
task is another user's); they then answer 404 "task not found" and leave the
store as it was.  With the primary key in force, in every case the tasks of
every other user are after the request what they were before it. -/
theorem task_routes_guard_ownership (db : Db) (uid : UserId) (taskId : TaskId)
    (hkeys : taskKeysUnique db) :
    (¬ succeeded (taskActivate db uid taskId) ↔
        ¬ ∃ t ∈ db.tasks, t.id = taskId ∧ t.user_id = uid) ∧
    (¬ succeeded (taskDelete db uid taskId) ↔
        ¬ ∃ t ∈ db.tasks, t.id = taskId ∧ t.user_id = uid) ∧
    ((¬ ∃ t ∈ db.tasks, t.id = taskId ∧ t.user_id = uid) →
        taskActivate db uid taskId = (db, .error .taskNotFound) ∧
        taskDelete db uid taskId = (db, .error .taskNotFound)) ∧
    ApiError.httpStatus .taskNotFound = 404 ∧
    (∀ other, other ≠ uid →
        tasksOf (taskActivate db uid taskId).1 other = tasksOf db other ∧
        tasksOf (taskDelete db uid taskId).1 other = tasksOf db other) := by
  rw [← getOwnedTask_eq_none_iff]
  refine ⟨?_, ?_, ?_, rfl, ?_⟩
  · unfold taskActivate succeeded
    cases h : getOwnedTask db taskId uid <;> simp
  · unfold taskDelete succeeded
    cases h : getOwnedTask db taskId uid <;> simp
  · intro h
    simp [taskActivate, taskDelete, h]
  · intro other hne
    cases hown : getOwnedTask db taskId uid with
    | none => simp [taskActivate, taskDelete, hown]
    | some o =>
      exact ⟨taskActivate_other_users hkeys hown hne, taskDelete_other_users hkeys hown hne⟩

/-- Witness of C18: user 2 of the sample store asks for task 11 of user 1. -/
theorem task_routes_guard_ownership_witness :
    taskKeysUnique (sampleDb .stopped) ∧
    (¬ ∃ t ∈ (sampleDb .stopped).tasks, t.id = 11 ∧ t.user_id = 2) ∧
    taskActivate (sampleDb .stopped) 2 11 = (sampleDb .stopped, .error .taskNotFound) ∧
    taskDelete (sampleDb .stopped) 2 11 = (sampleDb .stopped, .error .taskNotFound) :=
  ⟨by decide, by decide,
   (task_routes_guard_ownership (sampleDb .stopped) 2 11 (by decide)).2.2.1 (by decide)⟩

/-! ## The two client projections compared -/

/-- C19, evaluated on the code. For the paused sample session the own-timer
display keeps whatever it showed (1490 if it was paused 10 s in), as its
comment says; the partner-timer display recomputes from `start_time` and the
moving `now`: 1490 at 10 s, 1480 at 20 s.  No previously shown value makes the
two agree at both instants. -/
theorem paused_projections_differ :
    updateMyTimerDisplay 1490 (sampleSession .paused) 1700000020000 = 1490 ∧
    updatePartnerDisplay (sampleSession .paused) 1700000010000 = 1490 ∧
    updatePartnerDisplay (sampleSession .paused) 1700000020000 = 1480 ∧
    ¬ ∃ prev,
      updateMyTimerDisplay prev (sampleSession .paused) 1700000010000
        = updatePartnerDisplay (sampleSession .paused) 1700000010000 ∧
      updateMyTimerDisplay prev (sampleSession .paused) 1700000020000
        = updatePartnerDisplay (sampleSession .paused) 1700000020000 := by
  have own : ∀ prev t, updateMyTimerDisplay prev (sampleSession .paused) t = prev := by
    intro prev t
    simp [updateMyTimerDisplay, sampleSession]
  have p1 : updatePartnerDisplay (sampleSession .paused) 1700000010000 = 1490 := by decide
  have p2 : updatePartnerDisplay (sampleSession .paused) 1700000020000 = 1480 := by decide
  refine ⟨own _ _, p1, p2, ?_⟩
  rintro ⟨prev, h1, h2⟩
  rw [own, p1] at h1
  rw [own, p2] at h2
  omega

/-- The two displays side by side. For a session that is not paused (running
or stopped) they give the same remaining time at every reference time.  For a
paused session the own-timer display keeps the value it showed, and the
partner-timer display evaluates
`max(0, duration_seconds - floor((now - start_time) / 1000))` when `start_time`
is neither null nor zero, and `duration_seconds` otherwise. -/
theorem projections_agree_unless_paused (prev : Int) (session : TimerSession) (now : Int) :
    (session.status ≠ .paused →
        updateMyTimerDisplay prev session now = updatePartnerDisplay session now) ∧
    (session.status = .paused →
        updateMyTimerDisplay prev session now = prev ∧
        updatePartnerDisplay session now
          = if jsTruthy session.start_time = true then
              max 0 (session.duration_seconds
                - floorSeconds (now - jsNum session.start_time))
            else session.duration_seconds) := by
  constructor
  · intro h
    unfold updateMyTimerDisplay updatePartnerDisplay
    simp [h]
  · intro h
    unfold updateMyTimerDisplay updatePartnerDisplay
    simp [h]

/-! ## Reconnecting, then the close of the replaced socket -/

theorem lookup_mapDelete (m : List (UserId × WsId)) (k : UserId) :
    (mapDelete m k).lookup k = none := by
  unfold mapDelete
  induction m with
  | nil => rfl
  | cons e m ih =>
    by_cases h : e.1 = k
    · simpa [List.filter_cons, h] using ih
    · have hk : (k == e.1) = false := by
        simpa using fun h' => h h'.symm
      obtain ⟨a, b⟩ := e
      simp only [List.filter_cons, h, ne_eq, not_false_eq_true, decide_True, if_true,
        List.lookup_cons]
      simp only at hk
      rw [hk]
      exact ih

/-- The `close` handler removes whatever socket is registered under the user
id, the socket of a later connection included. -/
theorem onClose_unregisters (hub : Hub) (userId : UserId) (roomId : Option RoomId) :
    (onClose hub userId roomId).connections.lookup userId = none :=
  lookup_mapDelete hub.connections userId

/-- C20, evaluated on the code. User 1 of the sample store connects with
socket 100 and connects again with socket 200, which replaces the registry
entry; then the `close` event of socket 100 is handled.  Before it user 1 is
registered with socket 200 and is in the set of room 1; after it user 1 has no
registry entry, the set of room 1 is empty, and a broadcast of user 1's state
is sent to nobody although socket 200 is open. -/
theorem stale_close_drops_new_socket :
    ((onConnection (sampleDb .running)
        (onConnection (sampleDb .running) { connections := [], rooms := [] }
          sampleReadyState (some 1) 100).hub
        sampleReadyState (some 1) 200).hub
      = { connections := [(1, 200)], rooms := [(some 1, [1])] }) ∧
    sampleReadyState 200 = 1 ∧
    reconnectThenClose (sampleDb .running) { connections := [], rooms := [] } sampleReadyState
        { id := 1, name := "Ann", invite_code := "a", room_id := some 1, created_at := 0 }
        100 200
      = { connections := [], rooms := [(some 1, [])] } ∧
    notifyTimerUpdate (sampleDb .running)
        (reconnectThenClose (sampleDb .running) { connections := [], rooms := [] }
          sampleReadyState
          { id := 1, name := "Ann", invite_code := "a", room_id := some 1, created_at := 0 }
          100 200)
        sampleReadyState 1 = [] := by
  decide

/-! ## Registry and room sets stay in step -/

theorem mapSet_isSome (m : List (UserId × WsId)) (k k' : UserId) (v : WsId) :
    ((mapSet m k v).lookup k').isSome = true ↔ k' = k ∨ (m.lookup k').isSome = true := by
  unfold mapSet
  simp only [List.lookup_isSome_iff, beq_iff_eq]
  split
  · rename_i hany
    simp only [List.mem_map]
    constructor
    · rintro ⟨p, ⟨e, he, rfl⟩, hp⟩
      by_cases hk : e.1 = k
      · left; simpa [hk] using hp
      · right; exact ⟨e, he, by simpa [hk] using hp⟩
    · rintro (h | ⟨e, he, hp⟩)
      · rw [List.any_eq_true] at hany
        obtain ⟨e, he, hek⟩ := hany
        simp only [decide_eq_true_eq] at hek
        exact ⟨(k, v), ⟨e, he, by simp [hek]⟩, h⟩
      · by_cases hk : e.1 = k
        · exact ⟨(k, v), ⟨e, he, by simp [hk]⟩, by simpa [hk] using hp⟩
        · exact ⟨e, ⟨e, he, by simp [hk]⟩, hp⟩
  · simp only [List.mem_append, List.mem_singleton]
    constructor
    · rintro ⟨p, hp | hp, hk⟩
      · exact Or.inr ⟨p, hp, hk⟩
      · subst hp; exact Or.inl hk
    · rintro (h | ⟨p, hp, hk⟩)
      · exact ⟨(k, v), Or.inr rfl, h⟩
      · exact ⟨p, Or.inl hp, hk⟩

theorem mapDelete_isSome (m : List (UserId × WsId)) (k k' : UserId) :
    ((mapDelete m k).lookup k').isSome = true ↔ k' ≠ k ∧ (m.lookup k').isSome = true := by
  unfold mapDelete
  simp only [List.lookup_isSome_iff, beq_iff_eq, List.mem_filter, decide_eq_true_eq]
  constructor
  · rintro ⟨p, ⟨hp, hne⟩, hk⟩
    exact ⟨fun h => hne (by rw [← hk]; exact h), p, hp, hk⟩
  · rintro ⟨hne, p, hp, hk⟩
    exact ⟨p, ⟨hp, fun h => hne (by rw [hk]; exact h)⟩, hk⟩

theorem mem_setAdd (s : List UserId) (u x : UserId) : x ∈ setAdd s u ↔ x ∈ s ∨ x = u := by
  unfold setAdd
  split
  · rename_i h
    constructor
    · exact Or.inl
    · rintro (h1 | h1)
      · exact h1
      · rw [h1]; exact h
  · simp

theorem mem_setDelete (s : List UserId) (u x : UserId) : x ∈ setDelete s u ↔ x ∈ s ∧ x ≠ u := by
  unfold setDelete
  simp

/-- Rewriting the value of the entries of one key, keys untouched. -/
theorem lookup_map_value (l : List (Option RoomId × List UserId)) (r r' : Option RoomId)
    (g : List UserId → List UserId) :
    (l.map (fun e => if e.1 = r then (e.1, g e.2) else e)).lookup r'
      = if r' = r then (l.lookup r').map g else l.lookup r' := by
  induction l with
  | nil => simp
  | cons e l ih =>
    obtain ⟨a, b⟩ := e
    simp only [List.map_cons]
    by_cases h2 : a = r
    · simp only [h2, if_true, List.lookup_cons]
      by_cases h1 : r' = r
      · simp [h1]
      · have hb : (r' == r) = false := by simpa using h1
        simp only [hb]
        rw [ih]
    · simp only [h2, if_false, List.lookup_cons]
      by_cases h1 : r' = a
      · have hne : ¬ r' = r := fun h => h2 (h1 ▸ h)
        simp [h1, hne, h2]
      · have hb : (r' == a) = false := by simpa using h1
        simp only [hb]
        rw [ih]

theorem mem_roomsJoin (rooms : List (Option RoomId × List UserId)) (r r' : Option RoomId)
    (u x : UserId) :
    x ∈ ((roomsJoin rooms r u).lookup r').getD [] ↔
      x ∈ (rooms.lookup r').getD [] ∨ (r' = r ∧ x = u) := by
  unfold roomsJoin
  simp only
  rw [lookup_map_value _ r r' (fun s => setAdd s u)]
  by_cases hr : r' = r
  · subst hr
    simp only [if_true, true_and]
    split
    · rename_i hany
      have hsome : (rooms.lookup r').isSome = true := by
        rw [List.lookup_isSome_iff]
        rw [List.any_eq_true] at hany
        obtain ⟨e, he, hek⟩ := hany
        exact ⟨e, he, by simpa using (of_decide_eq_true hek).symm⟩
      obtain ⟨s, hs⟩ := Option.isSome_iff_exists.1 hsome
      simp [hs, mem_setAdd]
    · rename_i hany
      have hnone : rooms.lookup r' = none := by
        rw [List.lookup_eq_none_iff]
        intro p hp
        simp only [bne_iff_ne, ne_eq]
        intro h
        exact hany (List.any_eq_true.2 ⟨p, hp, by simpa using h.symm⟩)
      simp [List.lookup_append, hnone, mem_setAdd]
  · simp only [hr, if_false, false_and, or_false]
    split
    · rfl
    · have hb : (r' == r) = false := by simpa using hr
      simp [List.lookup_append, List.lookup_cons, hb]

theorem mem_roomsLeave (rooms : List (Option RoomId × List UserId)) (r r' : Option RoomId)
    (u x : UserId) :
    x ∈ ((roomsLeave rooms r u).lookup r').getD [] ↔
      x ∈ (rooms.lookup r').getD [] ∧ ¬ (r' = r ∧ x = u) := by
  unfold roomsLeave
  rw [lookup_map_value _ r r' (fun s => setDelete s u)]
  by_cases hr : r' = r
  · subst hr
    simp only [if_true, true_and]
    cases rooms.lookup r' with
    | none => simp
    | some s => simp [mem_setDelete]
  · simp [hr]

/-- One event keeps the registry and the room sets in step: a registered user
is a row of `users`, and a user id is in the set of a room exactly when it is
registered and the room is the user's. -/
theorem applyHubEvent_inv (db : Db) (readyState : WsId → Nat) (hub : Hub) (ev : HubEvent)
    (hA : ∀ u, (hub.connections.lookup u).isSome = true → ∃ user, getUser db u = some user)
    (hB : ∀ u r, u ∈ roomSet hub r ↔
      (hub.connections.lookup u).isSome = true ∧
        ∃ user, getUser db u = some user ∧ user.room_id = r) :
    (∀ u, ((applyHubEvent db readyState hub ev).connections.lookup u).isSome = true →
        ∃ user, getUser db u = some user) ∧
    (∀ u r, u ∈ roomSet (applyHubEvent db readyState hub ev) r ↔
      ((applyHubEvent db readyState hub ev).connections.lookup u).isSome = true ∧
        ∃ user, getUser db u = some user ∧ user.room_id = r) := by
  cases ev with
  | connect cookie ws =>
    cases cookie with
    | none => exact ⟨hA, hB⟩
    | some uid =>
      cases hu : getUser db uid with
      | none =>
        simp only [applyHubEvent, onConnection, hu]
        exact ⟨hA, hB⟩
      | some user0 =>
        simp only [applyHubEvent, onConnection, hu, roomSet]
        constructor
        · intro u hkey
          rcases (mapSet_isSome _ _ _ _).1 hkey with h | h
          · subst h; exact ⟨user0, hu⟩
          · exact hA u h
        · intro u r
          rw [mem_roomsJoin, mapSet_isSome]
          have hB' := hB u r
          unfold roomSet at hB'
          constructor
          · rintro (h | ⟨h1, h2⟩)
            · obtain ⟨hk, hex⟩ := hB'.1 h
              exact ⟨Or.inr hk, hex⟩
            · subst h1; subst h2
              exact ⟨Or.inl rfl, user0, hu, rfl⟩
          · rintro ⟨hk | hk, user, huser, hroom⟩
            · subst hk
              rw [hu] at huser
              cases huser
              exact Or.inr ⟨hroom.symm, rfl⟩
            · exact Or.inl (hB'.2 ⟨hk, user, huser, hroom⟩)
  | close uid =>
    cases hu : getUser db uid with
    | none =>
      simp only [applyHubEvent, hu]
      exact ⟨hA, hB⟩
    | some user0 =>
      simp only [applyHubEvent, hu, onClose, roomSet]
      constructor
      · intro u hkey
        exact hA u ((mapDelete_isSome _ _ _).1 hkey).2
      · intro u r
        rw [mem_roomsLeave, mapDelete_isSome]
        have hB' := hB u r
        unfold roomSet at hB'
        constructor
        · rintro ⟨h, hnot⟩
          obtain ⟨hk, user, huser, hroom⟩ := hB'.1 h
          refine ⟨⟨?_, hk⟩, user, huser, hroom⟩
          intro hu'
          subst hu'
          rw [hu] at huser
          cases huser
          exact hnot ⟨hroom.symm, rfl⟩
        · rintro ⟨⟨hne, hk⟩, hex⟩
          exact ⟨hB'.2 ⟨hk, hex⟩, fun h => hne h.2⟩

theorem runHubEvents_inv (db : Db) (readyState : WsId → Nat) (events : List HubEvent) :
    ∀ hub,
      (∀ u, (hub.connections.lookup u).isSome = true → ∃ user, getUser db u = some user) →
      (∀ u r, u ∈ roomSet hub r ↔
        (hub.connections.lookup u).isSome = true ∧
          ∃ user, getUser db u = some user ∧ user.room_id = r) →
      (∀ u, ((events.foldl (applyHubEvent db readyState) hub).connections.lookup u).isSome = true →
        ∃ user, getUser db u = some user) ∧
      (∀ u r, u ∈ roomSet (events.foldl (applyHubEvent db readyState) hub) r ↔
        ((events.foldl (applyHubEvent db readyState) hub).connections.lookup u).isSome = true ∧
          ∃ user, getUser db u = some user ∧ user.room_id = r) := by
  induction events with
  | nil => intro hub hA hB; exact ⟨hA, hB⟩
  | cons ev events ih =>
    intro hub hA hB
    obtain ⟨hA', hB'⟩ := applyHubEvent_inv db readyState hub ev hA hB
    exact ih _ hA' hB'

/-- C21. In every hub reached from the empty hub by connect and close events
(the `users` table, and so every user's `room_id`, being fixed), in
particular by those in which each user has at most one connection at a time:
a user id is a key of `connections` exactly when it is in the set of the
user's own room, and it is in the set of no other room; an id that is not a
user's is neither a key nor in any set. -/
theorem registry_matches_room_sets (db : Db) (readyState : WsId → Nat)
    (events : List HubEvent) (u : UserId) :
    (∀ user, getUser db u = some user →
        (((runHubEvents db readyState events).connections.lookup u).isSome = true ↔
          u ∈ roomSet (runHubEvents db readyState events) user.room_id) ∧
        (∀ roomId, roomId ≠ user.room_id →
          u ∉ roomSet (runHubEvents db readyState events) roomId)) ∧
    (getUser db u = none →
        (runHubEvents db readyState events).connections.lookup u = none ∧
        ∀ roomId, u ∉ roomSet (runHubEvents db readyState events) roomId) := by
  obtain ⟨hA, hB⟩ := runHubEvents_inv db readyState events Hub.empty
    (by intro u h; simp [Hub.empty] at h)
    (by intro u r; simp [roomSet, Hub.empty])
  unfold runHubEvents
  constructor
  · intro user huser
    constructor
    · constructor
      · intro hk
        exact (hB u user.room_id).2 ⟨hk, user, huser, rfl⟩
      · intro hm
        exact ((hB u user.room_id).1 hm).1
    · intro roomId hne hm
      obtain ⟨_, user', huser', hroom⟩ := (hB u roomId).1 hm
      rw [huser] at huser'
      cases huser'
      exact hne hroom.symm
  · intro hnone
    constructor
    · cases hl : (List.foldl (applyHubEvent db readyState) Hub.empty events).connections.lookup u with
      | none => rfl
      | some ws =>
        obtain ⟨user, huser⟩ := hA u (by rw [hl]; rfl)
        rw [hnone] at huser
        cases huser
    · intro roomId hm
      obtain ⟨_, user, huser, _⟩ := (hB u roomId).1 hm
      rw [hnone] at huser
      cases huser

/-- A run of the sample store: users 1 and 2 connect, an unknown user 5 is
turned away, then user 1 closes; user 2 alone stays registered and in the set
of room 1. -/
theorem runHubEvents_sample :
    runHubEvents (sampleDb .running) sampleReadyState
        [.connect (some 1) 100, .connect (some 2) 200, .connect (some 5) 500,
         .connect none 600, .close 1]
      = { connections := [(2, 200)], rooms := [(some 1, [2])] } := by
  decide

end Pomadoro
